import Mathlib

/-!
Verification development for the grid-poi-profiler backend.

Shallow embedding of `src/backend/grid.py`, `src/backend/config.py`,
`src/backend/collector.py` and `src/backend/profiler.py`.
Python floats are idealised as real numbers; retry backoff durations are
rational numbers of seconds.  Python dicts are embedded as insertion-ordered
association lists (matching CPython dict semantics).
-/

namespace GridPoi

/-! ### GeoMath (src/backend/grid.py) -/

/-- Earth radius in meters (WGS84), constant `R` in `grid.py`. -/
def R : ℝ := 6378137

/-- `math.radians`: degrees to radians. -/
noncomputable def radians (x : ℝ) : ℝ := x * Real.pi / 180

/-- `offset_point(lat, lon, dx, dy)`: shift `dx` meters east and `dy` meters
north using the flat-earth approximation. -/
noncomputable def offset_point (lat lon dx dy : ℝ) : ℝ × ℝ :=
  (lat + (dy / R) * (180 / Real.pi),
   lon + (dx / (R * Real.cos (radians lat))) * (180 / Real.pi))

/-- The `a` intermediate of `haversine`. -/
noncomputable def hav_a (lat1 lon1 lat2 lon2 : ℝ) : ℝ :=
  Real.sin (radians (lat2 - lat1) / 2) ^ 2 +
    Real.cos (radians lat1) * Real.cos (radians lat2) *
      Real.sin (radians (lon2 - lon1) / 2) ^ 2

/-- `haversine(lat1, lon1, lat2, lon2)`: great-circle distance in meters. -/
noncomputable def haversine (lat1 lon1 lat2 lon2 : ℝ) : ℝ :=
  2 * R * Real.arcsin (Real.sqrt (hav_a lat1 lon1 lat2 lon2))

/-! ### Configuration constants (src/backend/config.py) -/

def BBOX_SOUTH : ℝ := 28.35
def BBOX_NORTH : ℝ := 28.53
def BBOX_WEST : ℝ := 76.82
def BBOX_EAST : ℝ := 77.15
def SIGMA_M : ℝ := 200
def MAX_INFLUENCE_M : ℝ := 1000
def COLLECTOR_RETRY_MAX : ℕ := 3

/-! ### Python dicts as insertion-ordered association lists -/

/-- `m[k] = v` on a Python dict: replace in place if the key exists,
otherwise append at the end. -/
def dinsert {α : Type} : List (String × α) → String → α → List (String × α)
  | [], k, v => [(k, v)]
  | (k0, v0) :: rest, k, v =>
    if k0 = k then (k, v) :: rest else (k0, v0) :: dinsert rest k v

/-- `m.get(k)` on a Python dict. -/
def dget {α : Type} : List (String × α) → String → Option α
  | [], _ => none
  | (k0, v0) :: rest, k => if k0 = k then some v0 else dget rest k

/-- `d.update(u)` on a Python dict. -/
def dupdate {α : Type} (m u : List (String × α)) : List (String × α) :=
  u.foldl (fun acc p => dinsert acc p.1 p.2) m

/-- Key list of a dict. -/
def dkeys {α : Type} (m : List (String × α)) : List String := m.map Prod.fst

/-- Sum of the values of a dict. -/
def vsum (m : List (String × ℝ)) : ℝ := (m.map Prod.snd).sum

/-! ### Collector (src/backend/collector.py) -/

/-- `KEYWORD_TO_TYPE`: keyword searches mapped to custom type names. -/
def KEYWORD_TO_TYPE : List (String × String) :=
  [("corporate office", "corporate_office"),
   ("coworking space", "coworking_space"),
   ("IT park", "it_park"),
   ("residential apartment", "residential"),
   ("housing society", "residential"),
   ("hotel", "hotel")]

/-- A raw Places API result (the fields `_parse_place` reads; the JSON
`.get` defaults are realised through the `Option`s). -/
structure RawPlace where
  place_id : Option String
  name : Option String
  lat : Option ℝ
  lng : Option ℝ
  types : List String
  rating : Option ℚ
  user_ratings_total : Option ℕ

/-- A parsed POI record as produced by `_parse_place` (the wall-clock
`last_updated` field is outside the embedding; `raw` stands for `raw_json`). -/
structure ParsedPlace where
  place_id : String
  name : String
  lat : ℝ
  lon : ℝ
  types : List String
  rating : Option ℚ
  user_ratings_total : Option ℕ
  raw : RawPlace

/-- `_parse_place(result, inject_type)`: build a POI record, injecting the
keyword's synthetic category as first tag when absent. -/
def parse_place (result : RawPlace) (inject_type : Option String) : ParsedPlace :=
  let types :=
    match inject_type with
    | some t => if t ∉ result.types then t :: result.types else result.types
    | none => result.types
  { place_id := result.place_id.getD ""
    name := result.name.getD ""
    lat := result.lat.getD 0
    lon := result.lng.getD 0
    types := types
    rating := result.rating
    user_ratings_total := result.user_ratings_total
    raw := result }

/-- An HTTP response from the external lookup service: a transport status
code and, for code 200, the JSON `status` string and result list. -/
structure HttpResponse where
  status_code : ℕ
  status : String
  results : List RawPlace

/-- One interaction with the external service: either a response or a
transport timeout (`httpx.TimeoutException`). -/
inductive NetEvent where
  | response (resp : HttpResponse)
  | timeout

/-- The observable outcome of `_fetch_one_tile`: the returned list, the total
backoff slept (seconds), and how many lookup attempts were issued. -/
structure FetchResult where
  results : List ParsedPlace
  total_wait : ℚ
  attempts : ℕ

/-- The retry loop body of `_fetch_one_tile`.  `env n` is the outcome of the
`n`-th lookup attempt.  `fuel` equals `COLLECTOR_RETRY_MAX + 1 - retries`,
so running out of fuel is exactly the `while retries <= RETRY_MAX` guard
failing, which falls through to the final `return []`. -/
def fetchGo (env : ℕ → NetEvent) (inject_type : Option String) :
    ℕ → ℕ → ℕ → ℚ → FetchResult
  | 0, _retries, attempts, waited => ⟨[], waited, attempts⟩
  | fuel + 1, retries, attempts, waited =>
    match env attempts with
    | .timeout => fetchGo env inject_type fuel (retries + 1) (attempts + 1) (waited + 1)
    | .response resp =>
      if resp.status_code = 200 then
        if resp.status = "OK" then
          ⟨resp.results.map (fun p => parse_place p inject_type), waited, attempts + 1⟩
        else if resp.status = "ZERO_RESULTS" then ⟨[], waited, attempts + 1⟩
        else if resp.status = "OVER_QUERY_LIMIT" then
          fetchGo env inject_type fuel (retries + 1) (attempts + 1) (waited + 2 ^ retries)
        else if resp.status = "REQUEST_DENIED" then ⟨[], waited, attempts + 1⟩
        else ⟨[], waited, attempts + 1⟩
      else ⟨[], waited, attempts + 1⟩

/-- `_fetch_one_tile` for one work unit, abstracted over the service
behaviour `env`.  `keyword` drives the `inject_type` lexicon lookup exactly
as in the source; `retries` starts at 0. -/
def fetch_one_tile (env : ℕ → NetEvent) (keyword : Option String) : FetchResult :=
  fetchGo env (keyword.bind (fun k => dget KEYWORD_TO_TYPE k)) (COLLECTOR_RETRY_MAX + 1) 0 0 0

/-- The merge fold of `collect_pois`: results from all units are folded into
one mapping keyed by `place_id`, skipping falsy (empty) ids. -/
def merge_pois (batches : List (List ParsedPlace)) : List (String × ParsedPlace) :=
  batches.foldl
    (fun acc res =>
      res.foldl (fun acc2 poi =>
        if poi.place_id ≠ "" then dinsert acc2 poi.place_id poi else acc2) acc)
    []

/-- `compute_tile_centers()`: square lattice of tile centers covering the
bbox plus an influence buffer.  The two `while` loops over real coordinates
visit exactly `floor(range/spacing) + 1` values each. -/
noncomputable def compute_tile_centers : List (ℝ × ℝ) :=
  let tile_radius := MAX_INFLUENCE_M
  let spacing := tile_radius * Real.sqrt 2 * 0.9
  let width_m := haversine BBOX_SOUTH BBOX_WEST BBOX_SOUTH BBOX_EAST
  let height_m := haversine BBOX_SOUTH BBOX_WEST BBOX_NORTH BBOX_WEST
  let buffer := tile_radius
  let nx := ⌊(width_m + 2 * buffer) / spacing⌋₊ + 1
  let ny := ⌊(height_m + 2 * buffer) / spacing⌋₊ + 1
  (List.range ny).flatMap (fun (j : ℕ) =>
    (List.range nx).map (fun (i : ℕ) =>
      offset_point BBOX_SOUTH BBOX_WEST (-buffer + (i : ℝ) * spacing)
        (-buffer + (j : ℝ) * spacing)))

/-! ### Profile configuration tables (src/backend/config.py) -/

def AGE_BUCKETS : List String := ["0-12", "13-17", "18-24", "25-34", "35-50", "50+"]

def TYPE_TO_AGE_WEIGHTS : List (String × List (String × ℚ)) :=
  [("school",          [("0-12", 0.70), ("13-17", 0.30)]),
   ("university",      [("18-24", 0.80), ("25-34", 0.20)]),
   ("shopping_mall",   [("25-34", 0.30), ("35-50", 0.40), ("18-24", 0.20), ("13-17", 0.10)]),
   ("store",           [("25-34", 0.40), ("35-50", 0.30), ("18-24", 0.20), ("50+", 0.10)]),
   ("restaurant",      [("25-34", 0.35), ("18-24", 0.25), ("35-50", 0.25), ("13-17", 0.10),
                        ("50+", 0.05)]),
   ("hospital",        [("35-50", 0.25), ("50+", 0.30), ("25-34", 0.20), ("0-12", 0.10),
                        ("13-17", 0.05), ("18-24", 0.10)]),
   ("transit_station", [("18-24", 0.30), ("25-34", 0.40), ("35-50", 0.20), ("13-17", 0.10)]),
   ("park",            [("0-12", 0.20), ("25-34", 0.25), ("35-50", 0.30), ("50+", 0.15),
                        ("13-17", 0.10)]),
   ("gym",             [("18-24", 0.35), ("25-34", 0.40), ("35-50", 0.20), ("13-17", 0.05)]),
   ("movie_theater",   [("13-17", 0.15), ("18-24", 0.35), ("25-34", 0.30), ("35-50", 0.15),
                        ("0-12", 0.05)]),
   ("bar",             [("18-24", 0.30), ("25-34", 0.45), ("35-50", 0.20), ("50+", 0.05)]),
   ("night_club",      [("18-24", 0.45), ("25-34", 0.40), ("35-50", 0.10), ("13-17", 0.05)]),
   ("place_of_worship", [("35-50", 0.30), ("50+", 0.35), ("25-34", 0.15), ("0-12", 0.10),
                        ("13-17", 0.05), ("18-24", 0.05)]),
   ("lodging",         [("25-34", 0.35), ("35-50", 0.35), ("18-24", 0.15), ("50+", 0.15)]),
   ("corporate_office", [("25-34", 0.45), ("35-50", 0.35), ("18-24", 0.15), ("50+", 0.05)]),
   ("coworking_space", [("18-24", 0.25), ("25-34", 0.50), ("35-50", 0.20), ("13-17", 0.05)]),
   ("it_park",         [("25-34", 0.50), ("35-50", 0.30), ("18-24", 0.15), ("50+", 0.05)]),
   ("residential",     [("0-12", 0.15), ("13-17", 0.10), ("25-34", 0.30), ("35-50", 0.30),
                        ("50+", 0.15)])]

def INTEREST_CATEGORIES : List String :=
  ["education", "shopping", "food", "health", "transit", "entertainment", "business",
   "lifestyle"]

def TYPE_TO_INTEREST_WEIGHTS : List (String × List (String × ℚ)) :=
  [("school",          [("education", 1.0)]),
   ("university",      [("education", 0.9), ("food", 0.1)]),
   ("shopping_mall",   [("shopping", 0.8), ("entertainment", 0.2)]),
   ("store",           [("shopping", 0.9), ("food", 0.1)]),
   ("restaurant",      [("food", 1.0)]),
   ("hospital",        [("health", 1.0)]),
   ("transit_station", [("transit", 1.0)]),
   ("park",            [("lifestyle", 0.7), ("health", 0.3)]),
   ("gym",             [("lifestyle", 0.5), ("health", 0.5)]),
   ("movie_theater",   [("entertainment", 1.0)]),
   ("bar",             [("entertainment", 0.7), ("food", 0.3)]),
   ("night_club",      [("entertainment", 1.0)]),
   ("place_of_worship", [("lifestyle", 1.0)]),
   ("lodging",         [("business", 0.5), ("lifestyle", 0.5)]),
   ("corporate_office", [("business", 1.0)]),
   ("coworking_space", [("business", 0.9), ("lifestyle", 0.1)]),
   ("it_park",         [("business", 1.0)]),
   ("residential",     [("lifestyle", 1.0)])]

def TYPE_TO_LANDUSE : List (String × String) :=
  [("school", "education"), ("university", "education"), ("shopping_mall", "commercial"),
   ("store", "commercial"), ("restaurant", "commercial"), ("hospital", "health"),
   ("transit_station", "transit"), ("park", "recreation"), ("gym", "recreation"),
   ("movie_theater", "entertainment"), ("bar", "entertainment"),
   ("night_club", "entertainment"), ("place_of_worship", "residential"),
   ("lodging", "hospitality"), ("corporate_office", "office"),
   ("coworking_space", "office"), ("it_park", "office"), ("residential", "residential")]

def TYPE_IMPORTANCE : List (String × ℚ) :=
  [("hospital", 1.5), ("university", 1.3), ("school", 1.2), ("shopping_mall", 1.4),
   ("store", 0.8), ("restaurant", 0.7), ("transit_station", 1.0), ("park", 0.9),
   ("gym", 0.8), ("movie_theater", 1.0), ("bar", 0.7), ("night_club", 0.8),
   ("place_of_worship", 0.9), ("lodging", 1.0), ("corporate_office", 1.6),
   ("coworking_space", 1.4), ("it_park", 1.7), ("residential", 1.3)]

/-! ### Profiler (src/backend/profiler.py) -/

/-- `_DEG_PER_M_LAT = 1.0 / 111_320.0`. -/
noncomputable def DEG_PER_M_LAT : ℝ := 1 / 111320

/-- `_DEG_PER_M_LON = 1.0 / (111_320.0 * math.cos(math.radians(28.44)))`. -/
noncomputable def DEG_PER_M_LON : ℝ := 1 / (111320 * Real.cos (radians 28.44))

/-- `_LAT_MARGIN`: degree margin of the coarse filter, 10% safety factor. -/
noncomputable def LAT_MARGIN : ℝ := MAX_INFLUENCE_M * DEG_PER_M_LAT * 1.1

/-- `_LON_MARGIN`. -/
noncomputable def LON_MARGIN : ℝ := MAX_INFLUENCE_M * DEG_PER_M_LON * 1.1

/-- `_gaussian_decay(d)`. -/
noncomputable def gaussian_decay (d : ℝ) : ℝ :=
  Real.exp (-(d * d) / (2 * SIGMA_M * SIGMA_M))

/-- `_popularity_factor(user_ratings_total)`; `None` and `0` are falsy. -/
noncomputable def popularity_factor : Option ℕ → ℝ
  | none => 1
  | some c => if c = 0 then 1 else 1 + Real.log (1 + (c : ℝ))

/-- `_primary_type(types)`: first tag appearing in `TYPE_IMPORTANCE`. -/
def primary_type (types : List String) : Option String :=
  types.find? (fun t => (dget TYPE_IMPORTANCE t).isSome)

/-- `GridPoint` record from `grid.py`. -/
structure GridPoint where
  id : String
  i : ℤ
  j : ℤ
  lat : ℝ
  lon : ℝ

/-- A POI row as seen by the profiler read path (`db.get_all_pois` parses
`types` back into a list). -/
structure Poi where
  place_id : String
  name : String
  lat : ℝ
  lon : ℝ
  types : List String
  rating : Option ℚ
  user_ratings_total : Option ℕ

/-- Python `round(x, n)` idealised over the reals: round to `n` decimal
digits (ties-to-even versus ties-up differs only at exact ties, which none
of the verified statements depend on). -/
noncomputable def pyround (x : ℝ) (n : ℕ) : ℝ :=
  (round (x * 10 ^ n) : ℤ) / 10 ^ n

/-- One entry of `poi_summary.nearest`. -/
structure NearestEntry where
  place_id : String
  name : String
  ptype : String
  distance_m : ℝ

/-- Ordering used by `nearby_pois.sort(key=lambda x: x[1])`. -/
def distLE (a b : Poi × ℝ) : Prop := a.2 ≤ b.2

noncomputable instance : DecidableRel distLE :=
  fun a b => inferInstanceAs (Decidable (a.2 ≤ b.2))

instance : IsTotal (Poi × ℝ) distLE := ⟨fun a b => le_total a.2 b.2⟩

instance : IsTrans (Poi × ℝ) distLE := ⟨fun _ _ _ => le_trans⟩

/-- Descending-by-value ordering used by
`sorted(landuse_scores, key=landuse_scores.get, reverse=True)`. -/
def valGE (a b : String × ℝ) : Prop := b.2 ≤ a.2

noncomputable instance : DecidableRel valGE :=
  fun a b => inferInstanceAs (Decidable (b.2 ≤ a.2))

instance : IsTotal (String × ℝ) valGE := ⟨fun a b => le_total b.2 a.2⟩

instance : IsTrans (String × ℝ) valGE := ⟨fun _ _ _ h1 h2 => le_trans h2 h1⟩

/-- The display type of a nearest entry:
`_primary_type(types) or (types[0] if types else "unknown")`. -/
def display_type (types : List String) : String :=
  (primary_type types).getD (types.headD "unknown")

/-- Build one `nearest` entry (distance rounded to one decimal). -/
noncomputable def nearest_entry (pd : Poi × ℝ) : NearestEntry :=
  { place_id := pd.1.place_id
    name := pd.1.name
    ptype := display_type pd.1.types
    distance_m := pyround pd.2 1 }

/-- The `counts` loop body: tally by resolved primary category, skipping
categoryless POIs (`defaultdict(int)` read-modify-write). -/
def count_step (m : List (String × ℕ)) (pd : Poi × ℝ) : List (String × ℕ) :=
  match primary_type pd.1.types with
  | some t => dinsert m t ((dget m t).getD 0 + 1)
  | none => m

/-- Weighted-score accumulator of the main loop of `compute_profile`. -/
structure Accum where
  age_scores : List (String × ℝ)
  interest_scores : List (String × ℝ)
  footfall_total : ℝ
  total_influence : ℝ
  landuse_scores : List (String × ℝ)

def Accum.init : Accum := ⟨[], [], 0, 0, []⟩

/-- Fan a weight out across a per-category fractional table
(`scores[bucket] += base_weight * w`). -/
def fanout (m : List (String × ℝ)) (ws : List (String × ℚ)) (base : ℝ) :
    List (String × ℝ) :=
  ws.foldl (fun acc p => dinsert acc p.1 ((dget acc p.1).getD 0 + base * (p.2 : ℝ))) m

/-- One iteration of the weighted-score loop of `compute_profile`. -/
noncomputable def accum_step (acc : Accum) (pd : Poi × ℝ) : Accum :=
  match primary_type pd.1.types with
  | none => acc
  | some ptype =>
    let decay := gaussian_decay pd.2
    let importance := ((dget TYPE_IMPORTANCE ptype).getD 1 : ℚ)
    let pop := popularity_factor pd.1.user_ratings_total
    let base_weight := (importance : ℝ) * decay * pop
    { age_scores := fanout acc.age_scores ((dget TYPE_TO_AGE_WEIGHTS ptype).getD []) base_weight
      interest_scores :=
        fanout acc.interest_scores ((dget TYPE_TO_INTEREST_WEIGHTS ptype).getD []) base_weight
      footfall_total := acc.footfall_total + pop * decay
      total_influence := acc.total_influence + base_weight
      landuse_scores :=
        dinsert acc.landuse_scores ((dget TYPE_TO_LANDUSE ptype).getD "other")
          ((dget acc.landuse_scores ((dget TYPE_TO_LANDUSE ptype).getD "other")).getD 0
            + base_weight) }

/-- The `normalize` inner function of `compute_profile`. -/
noncomputable def normalize (scores : List (String × ℝ)) : List (String × ℝ) :=
  let total := vsum scores
  if total = 0 then scores.map (fun p => (p.1, (0 : ℝ)))
  else scores.map (fun p => (p.1, pyround (p.2 / total) 2))

/-- The profile record returned by `compute_profile` (`poi_summary` and
`audience` flattened into fields; constant `model_metadata` omitted). -/
structure ProfileOut where
  grid_point_id : String
  lat : ℝ
  lon : ℝ
  nearest : List NearestEntry
  counts : List (String × ℕ)
  age_profile : List (String × ℝ)
  interests : List (String × ℝ)
  footfall_proxy : ℝ
  confidence : ℝ
  geographic_attributes : List String

/-- `compute_profile(grid_point, nearby_pois)` from `profiler.py`. -/
noncomputable def compute_profile (gp : GridPoint) (nearby_pois : List (Poi × ℝ)) :
    ProfileOut :=
  let sorted_pois := nearby_pois.insertionSort distLE
  let nearest_list := (sorted_pois.take 10).map nearest_entry
  let counts := sorted_pois.foldl count_step []
  let acc := sorted_pois.foldl accum_step Accum.init
  let age_profile := dupdate (AGE_BUCKETS.map (fun b => (b, (0 : ℝ)))) (normalize acc.age_scores)
  let interests :=
    dupdate (INTEREST_CATEGORIES.map (fun c => (c, (0 : ℝ)))) (normalize acc.interest_scores)
  let footfall_proxy :=
    if acc.footfall_total > 0 then pyround (min 1 (acc.footfall_total / 20)) 2 else 0
  let confidence :=
    if acc.total_influence > 0 then pyround (min 1 (acc.total_influence / 15)) 2 else 0
  let geo_attrs :=
    if acc.landuse_scores = [] then []
    else ((acc.landuse_scores.insertionSort valGE).map Prod.fst).take 3
  { grid_point_id := gp.id
    lat := gp.lat
    lon := gp.lon
    nearest := nearest_list
    counts := counts
    age_profile := age_profile
    interests := interests
    footfall_proxy := footfall_proxy
    confidence := confidence
    geographic_attributes := geo_attrs }

/-- The per-grid-point candidate selection of `compute_all_profiles`:
coarse lat/lon bounding-box filter, then exact haversine filter. -/
noncomputable def profile_candidates (gp : GridPoint) (pois : List Poi) :
    List (Poi × ℝ) :=
  pois.filterMap (fun poi =>
    if |poi.lat - gp.lat| ≤ LAT_MARGIN ∧ |poi.lon - gp.lon| ≤ LON_MARGIN then
      if haversine gp.lat gp.lon poi.lat poi.lon ≤ MAX_INFLUENCE_M then
        some (poi, haversine gp.lat gp.lon poi.lat poi.lon)
      else none
    else none)

/-- Modelled from the spec: "Exact filter: for survivors, compute haversine
distance and keep only those within the true influence radius."  The
one-stage reference filter that claim C2 compares the two-stage filter of
`compute_all_profiles` against. -/
noncomputable def influence_filter (gp : GridPoint) (pois : List Poi) :
    List (Poi × ℝ) :=
  pois.filterMap (fun poi =>
    if haversine gp.lat gp.lon poi.lat poi.lon ≤ MAX_INFLUENCE_M then
      some (poi, haversine gp.lat gp.lon poi.lat poi.lon)
    else none)

/-! ### Association-list dictionary lemmas -/

theorem dget_dinsert_self {α : Type} (m : List (String × α)) (k : String) (v : α) :
    dget (dinsert m k v) k = some v := by
  induction m with
  | nil => simp [dinsert, dget]
  | cons p rest ih =>
    by_cases h : p.1 = k
    · simp [dinsert, dget, h]
    · simp [dinsert, dget, h, ih]

theorem dkeys_nil {α : Type} : dkeys ([] : List (String × α)) = [] := rfl

theorem dkeys_cons {α : Type} (p : String × α) (rest : List (String × α)) :
    dkeys (p :: rest) = p.1 :: dkeys rest := rfl

theorem mem_dkeys_cons {α : Type} {p : String × α} {rest : List (String × α)} {k : String} :
    k ∈ dkeys (p :: rest) ↔ k = p.1 ∨ k ∈ dkeys rest := by
  rw [dkeys_cons]
  exact List.mem_cons

theorem dget_dinsert_ne {α : Type} (m : List (String × α)) (k k0 : String) (v : α)
    (h : k0 ≠ k) : dget (dinsert m k v) k0 = dget m k0 := by
  induction m with
  | nil => simp [dinsert, dget, Ne.symm h]
  | cons p rest ih =>
    by_cases hp : p.1 = k
    · subst hp
      simp [dinsert, dget, Ne.symm h]
    · simp only [dinsert, if_neg hp]
      by_cases hk0 : p.1 = k0
      · simp [dget, hk0]
      · simp [dget, hk0, ih]

theorem dkeys_dinsert_mem {α : Type} (m : List (String × α)) (k : String) (v : α)
    (h : k ∈ dkeys m) : dkeys (dinsert m k v) = dkeys m := by
  induction m with
  | nil => simp [dkeys_nil] at h
  | cons p rest ih =>
    by_cases hp : p.1 = k
    · simp [dinsert, dkeys_cons, hp]
    · have hmem : k ∈ dkeys rest := by
        rcases mem_dkeys_cons.1 h with h1 | h1
        · exact absurd h1.symm hp
        · exact h1
      simp [dinsert, dkeys_cons, hp, ih hmem]

theorem dkeys_dinsert_notmem {α : Type} (m : List (String × α)) (k : String) (v : α)
    (h : k ∉ dkeys m) : dkeys (dinsert m k v) = dkeys m ++ [k] := by
  induction m with
  | nil => simp [dinsert, dkeys_nil, dkeys_cons]
  | cons p rest ih =>
    have hp : p.1 ≠ k := fun hh => h (mem_dkeys_cons.2 (Or.inl hh.symm))
    have hrest : k ∉ dkeys rest := fun hh => h (mem_dkeys_cons.2 (Or.inr hh))
    simp [dinsert, dkeys_cons, hp, ih hrest]

theorem dkeys_dinsert_nodup {α : Type} (m : List (String × α)) (k : String) (v : α)
    (h : (dkeys m).Nodup) : (dkeys (dinsert m k v)).Nodup := by
  by_cases hk : k ∈ dkeys m
  · simpa [dkeys_dinsert_mem m k v hk] using h
  · rw [dkeys_dinsert_notmem m k v hk]
    simpa [List.nodup_append] using ⟨h, hk⟩

theorem dget_eq_none_of_notmem {α : Type} (m : List (String × α)) (k : String)
    (h : k ∉ dkeys m) : dget m k = none := by
  induction m with
  | nil => simp [dget]
  | cons p rest ih =>
    have hp : p.1 ≠ k := fun hh => h (mem_dkeys_cons.2 (Or.inl hh.symm))
    have hrest : k ∉ dkeys rest := fun hh => h (mem_dkeys_cons.2 (Or.inr hh))
    simp [dget, hp, ih hrest]

theorem dget_isSome_of_mem {α : Type} (m : List (String × α)) (k : String)
    (h : k ∈ dkeys m) : (dget m k).isSome := by
  induction m with
  | nil => simp [dkeys_nil] at h
  | cons p rest ih =>
    by_cases hp : p.1 = k
    · simp [dget, hp]
    · have hmem : k ∈ dkeys rest := by
        rcases mem_dkeys_cons.1 h with h1 | h1
        · exact absurd h1.symm hp
        · exact h1
      simp [dget, hp, ih hmem]

/-! ### C10: deduplicating merge of `collect_pois` -/

/-- The per-POI step of the merge fold in `collect_pois`. -/
def merge_step (acc : List (String × ParsedPlace)) (poi : ParsedPlace) :
    List (String × ParsedPlace) :=
  if poi.place_id ≠ "" then dinsert acc poi.place_id poi else acc

theorem merge_pois_eq_foldl (batches : List (List ParsedPlace)) :
    merge_pois batches = batches.flatten.foldl merge_step [] := by
  unfold merge_pois
  rw [List.foldl_flatten]
  rfl

theorem dget_foldl_merge_step (k : String) (hk : k ≠ "") :
    ∀ (l : List ParsedPlace) (m : List (String × ParsedPlace)),
      dget (l.foldl merge_step m) k =
        (l.reverse.find? (fun p => p.place_id == k)).or (dget m k) := by
  intro l
  induction l with
  | nil => intro m; simp
  | cons p rest ih =>
    intro m
    simp only [List.foldl_cons, List.reverse_cons, List.find?_append, ih]
    by_cases hid : p.place_id = k
    · have hne : p.place_id ≠ "" := hid ▸ hk
      have hstep : merge_step m p = dinsert m p.place_id p := by
        simp [merge_step, hne]
      rw [hstep, hid, dget_dinsert_self]
      have hfind : List.find? (fun p => p.place_id == k) [p] = some p := by
        simp [hid]
      rw [hfind]
      cases rest.reverse.find? (fun p => p.place_id == k) <;> simp
    · have hfind : List.find? (fun p => p.place_id == k) [p] = none := by
        simp [hid]
      rw [hfind, Option.or_none]
      by_cases hemp : p.place_id = ""
      · have hstep : merge_step m p = m := by simp [merge_step, hemp]
        rw [hstep]
      · have hstep : merge_step m p = dinsert m p.place_id p := by
          simp [merge_step, hemp]
        rw [hstep, dget_dinsert_ne _ _ _ _ (fun hh => hid hh.symm)]

theorem dkeys_foldl_merge_step_nodup :
    ∀ (l : List ParsedPlace) (m : List (String × ParsedPlace)),
      (dkeys m).Nodup → (dkeys (l.foldl merge_step m)).Nodup := by
  intro l
  induction l with
  | nil => intro m hm; simpa using hm
  | cons p rest ih =>
    intro m hm
    simp only [List.foldl_cons]
    apply ih
    unfold merge_step
    split
    · exact dkeys_dinsert_nodup _ _ _ hm
    · exact hm

theorem dget_foldl_merge_step_empty :
    ∀ (l : List ParsedPlace) (m : List (String × ParsedPlace)),
      dget m "" = none → dget (l.foldl merge_step m) "" = none := by
  intro l
  induction l with
  | nil => intro m hm; simpa using hm
  | cons p rest ih =>
    intro m hm
    simp only [List.foldl_cons]
    apply ih
    unfold merge_step
    split
    · next hne => rw [dget_dinsert_ne _ _ _ _ (Ne.symm hne)]; exact hm
    · exact hm

/-- C10: folding fetched batches into the merged POI set keeps exactly one
entry per distinct non-empty `place_id` (the key list has no duplicates);
the entry stored under a non-empty key is the last-folded record with that
`place_id`, taken in full (so two overlapping tile lookups that return the
same `place_id` collapse to the single last one); records with an empty
`place_id` are dropped and never enter the merged set. -/
theorem merge_pois_last_writer_wins (batches : List (List ParsedPlace)) :
    (∀ k, k ≠ "" →
        dget (merge_pois batches) k =
          batches.flatten.reverse.find? (fun p => p.place_id == k)) ∧
    (dkeys (merge_pois batches)).Nodup ∧
    dget (merge_pois batches) "" = none := by
  refine ⟨fun k hk => ?_, ?_, ?_⟩
  · rw [merge_pois_eq_foldl, dget_foldl_merge_step k hk]
    simp [dget, Option.or_none]
  · rw [merge_pois_eq_foldl]
    exact dkeys_foldl_merge_step_nodup _ _ (by simp [dkeys])
  · rw [merge_pois_eq_foldl]
    exact dget_foldl_merge_step_empty _ _ (by simp [dget])

/-- Witness for C10 at a concrete input: two batches rediscover `place_id`
`"a"` (last record wins) and an empty-id record is dropped. -/
theorem merge_pois_last_writer_wins_witness :
    (dget (merge_pois
        [[⟨"a", "first", 0, 0, [], none, none, ⟨none, none, none, none, [], none, none⟩⟩],
         [⟨"a", "second", 0, 0, [], none, none, ⟨none, none, none, none, [], none, none⟩⟩,
          ⟨"", "dropped", 0, 0, [], none, none, ⟨none, none, none, none, [], none, none⟩⟩]])
        "a").map ParsedPlace.name = some "second" ∧
    dget (merge_pois
        [[⟨"a", "first", 0, 0, [], none, none, ⟨none, none, none, none, [], none, none⟩⟩],
         [⟨"a", "second", 0, 0, [], none, none, ⟨none, none, none, none, [], none, none⟩⟩,
          ⟨"", "dropped", 0, 0, [], none, none, ⟨none, none, none, none, [], none, none⟩⟩]])
        "" = none := by
  have h := merge_pois_last_writer_wins
    [[⟨"a", "first", 0, 0, [], none, none, ⟨none, none, none, none, [], none, none⟩⟩],
     [⟨"a", "second", 0, 0, [], none, none, ⟨none, none, none, none, [], none, none⟩⟩,
      ⟨"", "dropped", 0, 0, [], none, none, ⟨none, none, none, none, [], none, none⟩⟩]]
  refine ⟨?_, h.2.2⟩
  rw [h.1 "a" (by decide)]
  simp

/-! ### C6, C7, C8: retry loop of `_fetch_one_tile` -/

theorem fetchGo_rate_limited_run (env : ℕ → NetEvent) (inj : Option String)
    (rs : List RawPlace) :
    ∀ (k fuel retries attempts : ℕ) (waited : ℚ), k < fuel →
      (∀ i < k, ∃ l, env (attempts + i) = .response ⟨200, "OVER_QUERY_LIMIT", l⟩) →
      env (attempts + k) = .response ⟨200, "OK", rs⟩ →
      fetchGo env inj fuel retries attempts waited =
        ⟨rs.map (fun p => parse_place p inj),
         waited + ((List.range k).map (fun i => (2 : ℚ) ^ (retries + i))).sum,
         attempts + k + 1⟩ := by
  intro k
  induction k with
  | zero =>
    intro fuel retries attempts waited hfuel _ hOK
    obtain ⟨f, rfl⟩ : ∃ f, fuel = f + 1 :=
      ⟨fuel - 1, (Nat.succ_pred_eq_of_pos hfuel).symm⟩
    rw [fetchGo]
    rw [show env attempts = .response ⟨200, "OK", rs⟩ from by simpa using hOK]
    simp
  | succ k ih =>
    intro fuel retries attempts waited hfuel hOQL hOK
    obtain ⟨f, rfl⟩ : ∃ f, fuel = f + 1 :=
      ⟨fuel - 1, (Nat.succ_pred_eq_of_pos (Nat.lt_of_le_of_lt (Nat.zero_le _) hfuel)).symm⟩
    obtain ⟨l, hl⟩ := hOQL 0 (Nat.succ_pos k)
    rw [fetchGo]
    rw [show env attempts = .response ⟨200, "OVER_QUERY_LIMIT", l⟩ from by simpa using hl]
    simp only [String.reduceEq, if_true, if_false, reduceIte]
    rw [ih f (retries + 1) (attempts + 1) (waited + 2 ^ retries)
      (Nat.lt_of_succ_lt_succ hfuel)
      (fun i hi => by
        obtain ⟨li, hli⟩ := hOQL (i + 1) (Nat.succ_lt_succ hi)
        exact ⟨li, by rw [show attempts + 1 + i = attempts + (i + 1) by omega]; exact hli⟩)
      (by rw [show attempts + 1 + k = attempts + (k + 1) by omega]; exact hOK)]
    simp only [FetchResult.mk.injEq]
    refine ⟨trivial, ?_, by omega⟩
    rw [List.range_succ_eq_map]
    simp only [List.map_cons, List.map_map, List.sum_cons]
    have hmap : (List.range k).map ((fun i => (2 : ℚ) ^ (retries + i)) ∘ Nat.succ) =
        (List.range k).map (fun i => (2 : ℚ) ^ (retries + 1 + i)) :=
      List.map_congr_left (fun i _ => by
        simp only [Function.comp_apply]
        rw [show retries + Nat.succ i = retries + 1 + i by omega])
    rw [hmap]
    simp only [Nat.add_zero]
    ring

/-- C6: when the service answers rate-limited (`OVER_QUERY_LIMIT`) on the
first `k` attempts, with `k` within the retry budget, and then `OK`,
`_fetch_one_tile` returns the parsed results of the `OK` response, the total
backoff slept is `2^0 + 2^1 + ... + 2^(k-1)` seconds (the `i`-th rate-limited
attempt sleeps `2^i` seconds), and `k + 1` attempts are issued in total, each
rate-limited retry being counted against the attempt budget. -/
theorem fetch_one_tile_rate_limited_then_ok (env : ℕ → NetEvent)
    (keyword : Option String) (rs : List RawPlace) (k : ℕ)
    (hk : k ≤ COLLECTOR_RETRY_MAX)
    (hOQL : ∀ i < k, ∃ l, env i = .response ⟨200, "OVER_QUERY_LIMIT", l⟩)
    (hOK : env k = .response ⟨200, "OK", rs⟩) :
    fetch_one_tile env keyword =
      ⟨rs.map (fun p => parse_place p (keyword.bind (fun s => dget KEYWORD_TO_TYPE s))),
       ((List.range k).map (fun i => (2 : ℚ) ^ i)).sum,
       k + 1⟩ := by
  unfold fetch_one_tile
  rw [fetchGo_rate_limited_run env _ rs k (COLLECTOR_RETRY_MAX + 1) 0 0 0
    (Nat.lt_succ_of_le hk) (fun i hi => by simpa using hOQL i hi) (by simpa using hOK)]
  simp

/-- Witness for C6: two rate-limited responses then `OK` on a concrete
environment; backoff is `2^0 + 2^1 = 3` seconds and 3 attempts are made. -/
theorem fetch_one_tile_rate_limited_then_ok_witness :
    fetch_one_tile
        (fun n => if n < 2 then .response ⟨200, "OVER_QUERY_LIMIT", []⟩
                  else .response ⟨200, "OK", []⟩) none =
      ⟨[], 3, 3⟩ := by
  have h := fetch_one_tile_rate_limited_then_ok
    (fun n => if n < 2 then .response ⟨200, "OVER_QUERY_LIMIT", []⟩
              else .response ⟨200, "OK", []⟩) none [] 2
    (by decide)
    (fun i hi => ⟨[], by simp [hi]⟩)
    (by simp)
  rw [h]
  norm_num [List.range_succ]

theorem fetchGo_attempts_le (env : ℕ → NetEvent) (inj : Option String) :
    ∀ (fuel retries attempts : ℕ) (waited : ℚ),
      (fetchGo env inj fuel retries attempts waited).attempts ≤ attempts + fuel := by
  intro fuel
  induction fuel with
  | zero => intro retries attempts waited; simp [fetchGo]
  | succ f ih =>
    intro retries attempts waited
    rw [fetchGo]
    cases env attempts with
    | timeout => exact le_trans (ih _ _ _) (by omega)
    | response resp =>
      dsimp only
      split_ifs <;> first
        | exact le_trans (ih _ _ _) (by omega)
        | (dsimp only; omega)

/-- Counterexample to C8 as stated: with every response rate-limited, the
loop issues `COLLECTOR_RETRY_MAX + 1 = 4` lookup attempts (one initial
attempt plus three retries), which exceeds `COLLECTOR_RETRY_MAX = 3`. -/
theorem fetch_one_tile_attempts_exceed_retry_max :
    ¬ ((fetch_one_tile (fun _ => .response ⟨200, "OVER_QUERY_LIMIT", []⟩) none).attempts
        ≤ COLLECTOR_RETRY_MAX) := by
  have h : (fetch_one_tile (fun _ => .response ⟨200, "OVER_QUERY_LIMIT", []⟩) none).attempts
      = 4 := by
    simp [fetch_one_tile, fetchGo, COLLECTOR_RETRY_MAX, KEYWORD_TO_TYPE, dget]
  rw [h]
  decide

/-- C8 (amended): the retry loop of `_fetch_one_tile` always terminates (the
embedding is a total function) and, for every service behaviour, the total
number of lookup attempts issued is at most `COLLECTOR_RETRY_MAX + 1`: one
initial attempt plus at most `COLLECTOR_RETRY_MAX` retries. -/
theorem fetch_one_tile_attempts_bounded (env : ℕ → NetEvent) (keyword : Option String) :
    (fetch_one_tile env keyword).attempts ≤ COLLECTOR_RETRY_MAX + 1 := by
  unfold fetch_one_tile
  simpa using fetchGo_attempts_le env _ (COLLECTOR_RETRY_MAX + 1) 0 0 0

/-- C7: `_fetch_one_tile` never raises: on a permanently-denied response, an
unrecognized status, or a non-200 HTTP response it immediately returns the
empty list after that single attempt with no retry and no backoff; and when
every attempt within the budget is rate-limited or a timeout, the budget is
exhausted and the empty list is returned. -/
theorem fetch_one_tile_failure_empty (env : ℕ → NetEvent) (keyword : Option String) :
    (∀ l, env 0 = .response ⟨200, "REQUEST_DENIED", l⟩ →
        fetch_one_tile env keyword = ⟨[], 0, 1⟩) ∧
    (∀ s l, env 0 = .response ⟨200, s, l⟩ → s ≠ "OK" → s ≠ "ZERO_RESULTS" →
        s ≠ "OVER_QUERY_LIMIT" → s ≠ "REQUEST_DENIED" →
        fetch_one_tile env keyword = ⟨[], 0, 1⟩) ∧
    (∀ c s l, env 0 = .response ⟨c, s, l⟩ → c ≠ 200 →
        fetch_one_tile env keyword = ⟨[], 0, 1⟩) ∧
    ((∀ i ≤ COLLECTOR_RETRY_MAX,
        (∃ l, env i = .response ⟨200, "OVER_QUERY_LIMIT", l⟩) ∨ env i = .timeout) →
      (fetch_one_tile env keyword).results = []) := by
  refine ⟨fun l h => ?_, fun s l h hOK hZR hOQL hRD => ?_, fun c s l h h200 => ?_, fun h => ?_⟩
  · unfold fetch_one_tile COLLECTOR_RETRY_MAX
    rw [fetchGo, h]
    simp
  · unfold fetch_one_tile COLLECTOR_RETRY_MAX
    rw [fetchGo, h]
    simp [hOK, hZR, hOQL, hRD]
  · unfold fetch_one_tile COLLECTOR_RETRY_MAX
    rw [fetchGo, h]
    simp [h200]
  · unfold fetch_one_tile COLLECTOR_RETRY_MAX
    have wait_irrel : ∀ (fuel retries attempts : ℕ) (w w' : ℚ),
        (fetchGo env (keyword.bind fun k => dget KEYWORD_TO_TYPE k)
            fuel retries attempts w).results =
          (fetchGo env (keyword.bind fun k => dget KEYWORD_TO_TYPE k)
            fuel retries attempts w').results := by
      intro fuel
      induction fuel with
      | zero => intro retries attempts w w'; simp [fetchGo]
      | succ f ih =>
        intro retries attempts w w'
        rw [fetchGo, fetchGo]
        cases env attempts with
        | timeout => exact ih _ _ _ _
        | response resp =>
          dsimp only
          split_ifs <;> first | exact ih _ _ _ _ | rfl
    have step : ∀ (fuel retries : ℕ) (attempts : ℕ) (waited : ℚ),
        ((∃ l, env attempts = .response ⟨200, "OVER_QUERY_LIMIT", l⟩) ∨
          env attempts = .timeout) →
        (fetchGo env (keyword.bind fun k => dget KEYWORD_TO_TYPE k)
            (fuel + 1) retries attempts waited).results =
          (fetchGo env (keyword.bind fun k => dget KEYWORD_TO_TYPE k)
            fuel (retries + 1) (attempts + 1) 0).results := by
      intro fuel retries attempts waited hcase
      rcases hcase with ⟨l, hl⟩ | hl
      · rw [fetchGo, hl]
        simp only [String.reduceEq, if_true, if_false, reduceIte]
        exact wait_irrel _ _ _ _ _
      · rw [fetchGo, hl]
        exact wait_irrel _ _ _ _ _
    rw [step 3 0 0 0 (h 0 (Nat.zero_le _)), step 2 1 1 0 (h 1 (by decide)),
      step 1 2 2 0 (h 2 (by decide)), step 0 3 3 0 (h 3 (by decide))]
    rw [fetchGo]

/-- Witness for C7 at a concrete environment: a permanently-denied response
causes an immediate empty return after one attempt. -/
theorem fetch_one_tile_failure_empty_witness :
    fetch_one_tile (fun _ => .response ⟨200, "REQUEST_DENIED", []⟩) none = ⟨[], 0, 1⟩ :=
  (fetch_one_tile_failure_empty (fun _ => .response ⟨200, "REQUEST_DENIED", []⟩) none).1
    [] rfl

/-! ### C5: empty nearby-POI list -/

/-- C5: for every grid point, aggregating an empty nearby-POI list yields
`confidence = 0`, `footfall_proxy = 0`, every bucket of `age_profile` and
`interests` equal to `0.0`, `geographic_attributes = []` and
`poi_summary.nearest = []`. -/
theorem compute_profile_empty (gp : GridPoint) :
    (compute_profile gp []).confidence = 0 ∧
    (compute_profile gp []).footfall_proxy = 0 ∧
    (∀ p ∈ (compute_profile gp []).age_profile, p.2 = 0) ∧
    (∀ p ∈ (compute_profile gp []).interests, p.2 = 0) ∧
    (compute_profile gp []).geographic_attributes = [] ∧
    (compute_profile gp []).nearest = [] := by
  refine ⟨?_, ?_, ?_, ?_, ?_, ?_⟩ <;>
    simp [compute_profile, Accum.init, dupdate, normalize, vsum]

/-- Witness for C5 at a concrete grid point. -/
theorem compute_profile_empty_witness :
    (compute_profile ⟨"g_0_0", 0, 0, 28.4084, 77.0417⟩ []).confidence = 0 ∧
    (compute_profile ⟨"g_0_0", 0, 0, 28.4084, 77.0417⟩ []).nearest = [] := by
  obtain ⟨h1, _, _, _, _, h6⟩ := compute_profile_empty ⟨"g_0_0", 0, 0, 28.4084, 77.0417⟩
  exact ⟨h1, h6⟩

/-! ### C4: poi_summary of `compute_profile` -/

theorem pyround_mono (n : ℕ) {x y : ℝ} (h : x ≤ y) : pyround x n ≤ pyround y n := by
  unfold pyround
  have hc : (0 : ℝ) < 10 ^ n := by positivity
  have hr : round (x * 10 ^ n) ≤ round (y * 10 ^ n) := by
    rw [round_eq, round_eq]
    exact Int.floor_le_floor (by nlinarith)
  rw [div_le_div_iff_of_pos_right hc]
  exact_mod_cast hr

theorem dget_foldl_count_step (t : String) :
    ∀ (l : List (Poi × ℝ)) (m : List (String × ℕ)),
      (dget (l.foldl count_step m) t).getD 0 =
        (dget m t).getD 0 + l.countP (fun pd => primary_type pd.1.types == some t) := by
  intro l
  induction l with
  | nil => intro m; simp
  | cons pd rest ih =>
    intro m
    simp only [List.foldl_cons, List.countP_cons]
    cases hpt : primary_type pd.1.types with
    | none => simp [count_step, hpt, ih]
    | some u =>
      by_cases hu : u = t
      · subst hu
        simp only [count_step, hpt, ih, dget_dinsert_self, Option.getD_some]
        simp
        omega
      · have hpred : (some u == some t) = false := by simp [hu]
        simp [count_step, hpt, ih, dget_dinsert_ne _ _ _ _ (fun hh => hu hh.symm), hpred]

/-- C4: for every grid point and in-radius POI list, `poi_summary.nearest`
has at most 10 entries, its recorded distances are sorted ascending, and the
entries are exactly those of a 10-element lower part of the POI list under
distance (the closest POIs); `poi_summary.counts` tallies all POIs of the
list, not just the top 10, by resolved primary category, skipping
categoryless POIs. -/
theorem compute_profile_poi_summary (gp : GridPoint) (nearby : List (Poi × ℝ)) :
    (compute_profile gp nearby).nearest.length ≤ 10 ∧
    List.Sorted (· ≤ ·) ((compute_profile gp nearby).nearest.map NearestEntry.distance_m) ∧
    (∃ chosen rest, nearby.Perm (chosen ++ rest) ∧
        (compute_profile gp nearby).nearest = chosen.map nearest_entry ∧
        ∀ c ∈ chosen, ∀ r ∈ rest, c.2 ≤ r.2) ∧
    (∀ t, (dget (compute_profile gp nearby).counts t).getD 0 =
        nearby.countP (fun pd => primary_type pd.1.types == some t)) := by
  have hne : (compute_profile gp nearby).nearest =
      ((nearby.insertionSort distLE).take 10).map nearest_entry := by
    simp only [compute_profile]
  have hco : (compute_profile gp nearby).counts =
      (nearby.insertionSort distLE).foldl count_step [] := by
    simp only [compute_profile]
  have hsorted : List.Sorted distLE (nearby.insertionSort distLE) :=
    List.sorted_insertionSort distLE nearby
  have hperm : List.Perm (nearby.insertionSort distLE) nearby :=
    List.perm_insertionSort distLE nearby
  refine ⟨?_, ?_, ?_, ?_⟩
  · rw [hne]
    simp only [List.length_map, List.length_take]
    exact min_le_left _ _
  · rw [hne, List.map_map]
    have htake : List.Pairwise distLE ((nearby.insertionSort distLE).take 10) :=
      List.Pairwise.sublist (List.take_sublist _ _) hsorted
    rw [List.Sorted, List.pairwise_map]
    exact htake.imp (fun h => pyround_mono 1 h)
  · refine ⟨(nearby.insertionSort distLE).take 10, (nearby.insertionSort distLE).drop 10,
      ?_, hne, ?_⟩
    · rw [List.take_append_drop]
      exact hperm.symm
    · intro c hc r hr
      exact hsorted.rel_of_mem_take_of_mem_drop hc hr
  · intro t
    rw [hco, dget_foldl_count_step]
    simp [hperm.countP_eq, dget]

/-! ### C3: closed bucket universes and normalization -/

theorem dget_mem {α : Type} :
    ∀ (m : List (String × α)) (k : String) (v : α), dget m k = some v → (k, v) ∈ m := by
  intro m
  induction m with
  | nil => intro k v h; simp [dget] at h
  | cons p rest ih =>
    obtain ⟨k0, v0⟩ := p
    intro k v h
    by_cases hp : k0 = k
    · subst hp
      simp [dget] at h
      subst h
      exact List.mem_cons_self _ _
    · simp [dget, hp] at h
      exact List.mem_cons_of_mem _ (ih k v h)

theorem dkeys_dinsert_cases {α : Type} (m : List (String × α)) (k : String) (v : α) :
    ∀ k' ∈ dkeys (dinsert m k v), k' ∈ dkeys m ∨ k' = k := by
  intro k' h
  by_cases hk : k ∈ dkeys m
  · rw [dkeys_dinsert_mem _ _ _ hk] at h
    exact Or.inl h
  · rw [dkeys_dinsert_notmem _ _ _ hk] at h
    rcases List.mem_append.1 h with h1 | h1
    · exact Or.inl h1
    · right
      simpa using h1

theorem fanout_keys {ws : List (String × ℚ)} :
    ∀ (m : List (String × ℝ)) (base : ℝ) (k : String),
      k ∈ dkeys (fanout m ws base) → k ∈ dkeys m ∨ k ∈ ws.map Prod.fst := by
  induction ws with
  | nil => intro m base k h; exact Or.inl (by simpa [fanout] using h)
  | cons w rest ih =>
    intro m base k h
    have hfold : fanout m (w :: rest) base =
        fanout (dinsert m w.1 ((dget m w.1).getD 0 + base * (w.2 : ℝ))) rest base := rfl
    rw [hfold] at h
    rcases ih _ base k h with h1 | h1
    · rcases dkeys_dinsert_cases _ _ _ _ h1 with h2 | h2
      · exact Or.inl h2
      · exact Or.inr (by simp [h2])
    · exact Or.inr (by simp [h1])

theorem fanout_nodup {ws : List (String × ℚ)} :
    ∀ (m : List (String × ℝ)) (base : ℝ),
      (dkeys m).Nodup → (dkeys (fanout m ws base)).Nodup := by
  induction ws with
  | nil => intro m base h; simpa [fanout] using h
  | cons w rest ih =>
    intro m base h
    have hfold : fanout m (w :: rest) base =
        fanout (dinsert m w.1 ((dget m w.1).getD 0 + base * (w.2 : ℝ))) rest base := rfl
    rw [hfold]
    exact ih _ base (dkeys_dinsert_nodup _ _ _ h)

theorem age_weights_in_buckets (t : String) (ws : List (String × ℚ))
    (h : dget TYPE_TO_AGE_WEIGHTS t = some ws) : ∀ p ∈ ws, p.1 ∈ AGE_BUCKETS := by
  have hm := dget_mem _ _ _ h
  fin_cases hm <;> decide

theorem interest_weights_in_categories (t : String) (ws : List (String × ℚ))
    (h : dget TYPE_TO_INTEREST_WEIGHTS t = some ws) : ∀ p ∈ ws, p.1 ∈ INTEREST_CATEGORIES := by
  have hm := dget_mem _ _ _ h
  fin_cases hm <;> decide

theorem accum_keys_invariant :
    ∀ (l : List (Poi × ℝ)) (acc : Accum),
      (dkeys acc.age_scores).Nodup → (∀ k ∈ dkeys acc.age_scores, k ∈ AGE_BUCKETS) →
      (dkeys acc.interest_scores).Nodup →
      (∀ k ∈ dkeys acc.interest_scores, k ∈ INTEREST_CATEGORIES) →
      (dkeys (l.foldl accum_step acc).age_scores).Nodup ∧
        (∀ k ∈ dkeys (l.foldl accum_step acc).age_scores, k ∈ AGE_BUCKETS) ∧
        (dkeys (l.foldl accum_step acc).interest_scores).Nodup ∧
        (∀ k ∈ dkeys (l.foldl accum_step acc).interest_scores, k ∈ INTEREST_CATEGORIES) := by
  intro l
  induction l with
  | nil => intro acc h1 h2 h3 h4; exact ⟨h1, h2, h3, h4⟩
  | cons pd rest ih =>
    intro acc h1 h2 h3 h4
    rw [List.foldl_cons]
    cases hpt : primary_type pd.1.types with
    | none =>
      have hstep : accum_step acc pd = acc := by simp [accum_step, hpt]
      rw [hstep]
      exact ih acc h1 h2 h3 h4
    | some pt =>
      have hage : (accum_step acc pd).age_scores =
          fanout acc.age_scores ((dget TYPE_TO_AGE_WEIGHTS pt).getD [])
            (((dget TYPE_IMPORTANCE pt).getD 1 : ℚ) * gaussian_decay pd.2 *
              popularity_factor pd.1.user_ratings_total) := by
        simp [accum_step, hpt]
      have hint : (accum_step acc pd).interest_scores =
          fanout acc.interest_scores ((dget TYPE_TO_INTEREST_WEIGHTS pt).getD [])
            (((dget TYPE_IMPORTANCE pt).getD 1 : ℚ) * gaussian_decay pd.2 *
              popularity_factor pd.1.user_ratings_total) := by
        simp [accum_step, hpt]
      apply ih
      · rw [hage]
        exact fanout_nodup _ _ h1
      · rw [hage]
        intro k hk
        rcases fanout_keys _ _ _ hk with hk1 | hk1
        · exact h2 k hk1
        · cases hws : dget TYPE_TO_AGE_WEIGHTS pt with
          | none => rw [hws] at hk1; simp at hk1
          | some ws =>
            rw [hws] at hk1
            simp only [Option.getD_some] at hk1
            obtain ⟨p, hp, hpk⟩ := List.mem_map.1 hk1
            exact hpk ▸ age_weights_in_buckets pt ws hws p hp
      · rw [hint]
        exact fanout_nodup _ _ h3
      · rw [hint]
        intro k hk
        rcases fanout_keys _ _ _ hk with hk1 | hk1
        · exact h4 k hk1
        · cases hws : dget TYPE_TO_INTEREST_WEIGHTS pt with
          | none => rw [hws] at hk1; simp at hk1
          | some ws =>
            rw [hws] at hk1
            simp only [Option.getD_some] at hk1
            obtain ⟨p, hp, hpk⟩ := List.mem_map.1 hk1
            exact hpk ▸ interest_weights_in_categories pt ws hws p hp

theorem pyround_err (x : ℝ) (n : ℕ) : |pyround x n - x| ≤ 1 / (2 * 10 ^ n) := by
  unfold pyround
  have hc : (0 : ℝ) < 10 ^ n := by positivity
  have h := abs_sub_round (x * 10 ^ n)
  have hrw : (round (x * 10 ^ n) : ℝ) / 10 ^ n - x =
      ((round (x * 10 ^ n) : ℝ) - x * 10 ^ n) / 10 ^ n := by
    field_simp
    try ring
  rw [hrw, abs_div, abs_of_pos hc, div_le_div_iff₀ hc (by positivity)]
  rw [abs_sub_comm] at h
  calc |(round (x * 10 ^ n) : ℝ) - x * 10 ^ n| * (2 * 10 ^ n)
      ≤ (1 / 2) * (2 * 10 ^ n) := by nlinarith
    _ = 1 * 10 ^ n := by ring

theorem sum_map_err (f g : ℝ → ℝ) (ε : ℝ) (h : ∀ x, |f x - g x| ≤ ε) :
    ∀ l : List (String × ℝ),
      |((l.map (fun p => f p.2)).sum - (l.map (fun p => g p.2)).sum)| ≤ l.length * ε := by
  intro l
  induction l with
  | nil => simp
  | cons p rest ih =>
    simp only [List.map_cons, List.sum_cons, List.length_cons]
    calc |f p.2 + (rest.map (fun p => f p.2)).sum - (g p.2 + (rest.map (fun p => g p.2)).sum)|
        ≤ |f p.2 - g p.2| +
            |(rest.map (fun p => f p.2)).sum - (rest.map (fun p => g p.2)).sum| := by
          rw [show f p.2 + (rest.map (fun p => f p.2)).sum -
              (g p.2 + (rest.map (fun p => g p.2)).sum) =
              (f p.2 - g p.2) + ((rest.map (fun p => f p.2)).sum -
                (rest.map (fun p => g p.2)).sum) by ring]
          exact abs_add _ _
      _ ≤ ε + rest.length * ε := add_le_add (h p.2) ih
      _ = (rest.length + 1) * ε := by ring
      _ = ((rest.length + 1 : ℕ) : ℝ) * ε := by push_cast; ring

theorem dkeys_normalize (s : List (String × ℝ)) : dkeys (normalize s) = dkeys s := by
  unfold normalize
  dsimp only
  split <;> simp [dkeys, List.map_map, Function.comp]

theorem length_normalize (s : List (String × ℝ)) : (normalize s).length = s.length := by
  unfold normalize
  dsimp only
  split <;> simp

theorem normalize_all_zero (s : List (String × ℝ)) (h : vsum s = 0) :
    ∀ p ∈ normalize s, p.2 = 0 := by
  unfold normalize
  dsimp only
  rw [if_pos h]
  intro p hp
  obtain ⟨q, _, hq⟩ := List.mem_map.1 hp
  rw [← hq]

theorem sum_map_div (s : List (String × ℝ)) (c : ℝ) :
    (s.map (fun p => p.2 / c)).sum = (s.map Prod.snd).sum / c := by
  induction s with
  | nil => simp
  | cons p rest ih => simp [ih, add_div]

theorem vsum_normalize_near_one (s : List (String × ℝ)) (h : vsum s ≠ 0) :
    |vsum (normalize s) - 1| ≤ (s.length : ℝ) / 200 := by
  have hrw : normalize s = s.map (fun p => (p.1, pyround (p.2 / vsum s) 2)) := by
    unfold normalize
    dsimp only
    rw [if_neg h]
  have hsum1 : (s.map (fun p => p.2 / vsum s)).sum = 1 := by
    rw [sum_map_div, vsum] at *
    exact div_self h
  have herr := sum_map_err (fun x => pyround (x / vsum s) 2) (fun x => x / vsum s)
    (1 / (2 * 10 ^ 2)) (fun x => pyround_err (x / vsum s) 2) s
  have hvs : vsum (normalize s) = (s.map (fun p => pyround (p.2 / vsum s) 2)).sum := by
    rw [hrw, vsum, List.map_map]
    rfl
  rw [hvs, ← hsum1]
  calc |(s.map (fun p => pyround (p.2 / vsum s) 2)).sum - (s.map (fun p => p.2 / vsum s)).sum|
      ≤ s.length * (1 / (2 * 10 ^ 2)) := herr
    _ = (s.length : ℝ) / 200 := by norm_num; ring

theorem dkeys_dupdate_of_mem {α : Type} :
    ∀ (upd m : List (String × α)), (∀ p ∈ upd, p.1 ∈ dkeys m) →
      dkeys (dupdate m upd) = dkeys m := by
  intro upd
  induction upd with
  | nil => intro m _; rfl
  | cons u rest ih =>
    intro m h
    have hfold : dupdate m (u :: rest) = dupdate (dinsert m u.1 u.2) rest := rfl
    rw [hfold]
    have hk : dkeys (dinsert m u.1 u.2) = dkeys m :=
      dkeys_dinsert_mem _ _ _ (h u (List.mem_cons_self _ _))
    rw [ih _ (fun p hp => by rw [hk]; exact h p (List.mem_cons_of_mem _ hp)), hk]

theorem vsum_cons (p : String × ℝ) (l : List (String × ℝ)) :
    vsum (p :: l) = p.2 + vsum l := by
  simp [vsum]

theorem vsum_dinsert_zero (m : List (String × ℝ)) (k : String) (v : ℝ)
    (h : dget m k = some 0) : vsum (dinsert m k v) = vsum m + v := by
  induction m with
  | nil => simp [dget] at h
  | cons p rest ih =>
    obtain ⟨k0, v0⟩ := p
    by_cases hp : k0 = k
    · subst hp
      have hv0 : v0 = 0 := by simpa [dget] using h
      rw [show dinsert ((k0, v0) :: rest) k0 v = (k0, v) :: rest from by simp [dinsert]]
      rw [vsum_cons, vsum_cons, hv0]
      ring
    · simp only [dget, if_neg hp] at h
      simp only [dinsert, if_neg hp]
      rw [vsum_cons, vsum_cons, ih h]
      ring

theorem vsum_dupdate :
    ∀ (upd m : List (String × ℝ)), (dkeys upd).Nodup →
      (∀ p ∈ upd, dget m p.1 = some 0) →
      vsum (dupdate m upd) = vsum m + vsum upd := by
  intro upd
  induction upd with
  | nil => intro m _ _; simp [dupdate, vsum]
  | cons u rest ih =>
    intro m hnd h
    have hfold : dupdate m (u :: rest) = dupdate (dinsert m u.1 u.2) rest := rfl
    rw [hfold]
    have hu1 : u.1 ∉ dkeys rest := by
      rw [dkeys_cons] at hnd
      exact (List.nodup_cons.1 hnd).1
    have hrest : ∀ p ∈ rest, dget (dinsert m u.1 u.2) p.1 = some 0 := by
      intro p hp
      have hne : p.1 ≠ u.1 := by
        intro hh
        exact hu1 (hh ▸ List.mem_map_of_mem Prod.fst hp)
      rw [dget_dinsert_ne _ _ _ _ hne]
      exact h p (List.mem_cons_of_mem _ hp)
    rw [ih _ ((List.nodup_cons.1 (by rwa [dkeys_cons] at hnd)).2) hrest,
      vsum_dinsert_zero m u.1 u.2 (h u (List.mem_cons_self _ _)), vsum_cons]
    ring

theorem dget_map_zero (L : List String) (k : String) (h : k ∈ L) :
    dget (L.map (fun b => (b, (0 : ℝ)))) k = some 0 := by
  induction L with
  | nil => simp at h
  | cons b rest ih =>
    by_cases hb : b = k
    · simp [dget, hb]
    · have : k ∈ rest := by
        rcases List.mem_cons.1 h with h1 | h1
        · exact absurd h1.symm hb
        · exact h1
      simp [dget, hb, ih this]

theorem dkeys_map_pair (L : List String) :
    dkeys (L.map (fun b => (b, (0 : ℝ)))) = L := by
  rw [dkeys, List.map_map]
  have hcomp : (Prod.fst ∘ fun b : String => (b, (0 : ℝ))) = id := rfl
  rw [hcomp, List.map_id]

theorem vsum_map_zero (L : List String) :
    vsum (L.map (fun b => (b, (0 : ℝ)))) = 0 := by
  induction L with
  | nil => simp [vsum]
  | cons b rest ih => simp [vsum, List.map_map] at ih ⊢; exact ih

theorem dinsert_all_zero (m : List (String × ℝ)) (k : String) (v : ℝ)
    (hm : ∀ p ∈ m, p.2 = 0) (hv : v = 0) : ∀ p ∈ dinsert m k v, p.2 = 0 := by
  induction m with
  | nil =>
    intro p hp
    simp only [dinsert, List.mem_singleton] at hp
    subst hp
    exact hv
  | cons q rest ih =>
    intro p hp
    by_cases hq : q.1 = k
    · simp only [dinsert, if_pos hq] at hp
      rcases List.mem_cons.1 hp with h1 | h1
      · rw [h1]; exact hv
      · exact hm p (List.mem_cons_of_mem _ h1)
    · simp only [dinsert, if_neg hq] at hp
      rcases List.mem_cons.1 hp with h1 | h1
      · exact h1 ▸ hm q (List.mem_cons_self _ _)
      · exact ih (fun r hr => hm r (List.mem_cons_of_mem _ hr)) p h1

theorem dupdate_all_zero :
    ∀ (upd m : List (String × ℝ)), (∀ p ∈ m, p.2 = 0) → (∀ p ∈ upd, p.2 = 0) →
      ∀ p ∈ dupdate m upd, p.2 = 0 := by
  intro upd
  induction upd with
  | nil => intro m hm _; exact hm
  | cons u rest ih =>
    intro m hm hu
    have hfold : dupdate m (u :: rest) = dupdate (dinsert m u.1 u.2) rest := rfl
    rw [hfold]
    exact ih _
      (dinsert_all_zero m u.1 u.2 hm (hu u (List.mem_cons_self _ _)))
      (fun p hp => hu p (List.mem_cons_of_mem _ hp))

theorem nodup_subset_length {l L : List String} (hn : l.Nodup) (hs : ∀ k ∈ l, k ∈ L) :
    l.length ≤ L.length := by
  classical
  have h1 : l.toFinset.card = l.length := List.toFinset_card_of_nodup hn
  have h2 : l.toFinset ⊆ L.toFinset :=
    fun x hx => List.mem_toFinset.2 (hs x (List.mem_toFinset.1 hx))
  have h3 := Finset.card_le_card h2
  have h4 := L.toFinset_card_le
  omega

theorem normalized_update_closed (scores : List (String × ℝ)) (L : List String)
    (hnd : (dkeys scores).Nodup) (hsub : ∀ k ∈ dkeys scores, k ∈ L) :
    dkeys (dupdate (L.map (fun b => (b, (0 : ℝ)))) (normalize scores)) = L ∧
    (|vsum (dupdate (L.map (fun b => (b, (0 : ℝ)))) (normalize scores)) - 1| ≤
        (L.length : ℝ) / 200 ∨
      ∀ p ∈ dupdate (L.map (fun b => (b, (0 : ℝ)))) (normalize scores), p.2 = 0) := by
  have hkeysn : dkeys (normalize scores) = dkeys scores := dkeys_normalize scores
  have hmem : ∀ p ∈ normalize scores, p.1 ∈ dkeys (L.map (fun b => (b, (0 : ℝ)))) := by
    intro p hp
    rw [dkeys_map_pair]
    exact hsub p.1 (by rw [← hkeysn]; exact List.mem_map_of_mem Prod.fst hp)
  constructor
  · rw [dkeys_dupdate_of_mem _ _ hmem, dkeys_map_pair]
  · by_cases hz : vsum scores = 0
    · right
      exact dupdate_all_zero _ _
        (fun p hp => by
          obtain ⟨b, _, hb⟩ := List.mem_map.1 hp
          rw [← hb])
        (normalize_all_zero scores hz)
    · left
      have hupdnd : (dkeys (normalize scores)).Nodup := by rw [hkeysn]; exact hnd
      have hget0 : ∀ p ∈ normalize scores,
          dget (L.map (fun b => (b, (0 : ℝ)))) p.1 = some 0 := by
        intro p hp
        exact dget_map_zero _ _
          (hsub p.1 (by rw [← hkeysn]; exact List.mem_map_of_mem Prod.fst hp))
      rw [vsum_dupdate _ _ hupdnd hget0, vsum_map_zero, zero_add]
      have hsl : scores.length ≤ L.length := by
        have h1 : (dkeys scores).length = scores.length := by simp [dkeys]
        have h2 := nodup_subset_length hnd hsub
        omega
      calc |vsum (normalize scores) - 1| ≤ (scores.length : ℝ) / 200 :=
            vsum_normalize_near_one scores hz
        _ ≤ (L.length : ℝ) / 200 := by
            have hcast : (scores.length : ℝ) ≤ (L.length : ℝ) := by exact_mod_cast hsl
            linarith

/-- C3: for every grid point and nearby-POI list, `age_profile` and
`interests` are dicts over exactly the fixed universes `AGE_BUCKETS` and
`INTEREST_CATEGORIES` (no key omitted, none added, order preserved), and
each map either sums to 1 within the two-decimal rounding tolerance of half
an ulp per bucket or has every value exactly 0. -/
theorem compute_profile_distributions (gp : GridPoint) (nearby : List (Poi × ℝ)) :
    (dkeys (compute_profile gp nearby).age_profile = AGE_BUCKETS ∧
      (|vsum (compute_profile gp nearby).age_profile - 1| ≤ (AGE_BUCKETS.length : ℝ) / 200 ∨
        ∀ p ∈ (compute_profile gp nearby).age_profile, p.2 = 0)) ∧
    (dkeys (compute_profile gp nearby).interests = INTEREST_CATEGORIES ∧
      (|vsum (compute_profile gp nearby).interests - 1| ≤
          (INTEREST_CATEGORIES.length : ℝ) / 200 ∨
        ∀ p ∈ (compute_profile gp nearby).interests, p.2 = 0)) := by
  have hage : (compute_profile gp nearby).age_profile =
      dupdate (AGE_BUCKETS.map (fun b => (b, (0 : ℝ))))
        (normalize ((nearby.insertionSort distLE).foldl accum_step Accum.init).age_scores) := by
    simp only [compute_profile]
  have hint : (compute_profile gp nearby).interests =
      dupdate (INTEREST_CATEGORIES.map (fun b => (b, (0 : ℝ))))
        (normalize
          ((nearby.insertionSort distLE).foldl accum_step Accum.init).interest_scores) := by
    simp only [compute_profile]
  obtain ⟨hnd_age, hsub_age, hnd_int, hsub_int⟩ :=
    accum_keys_invariant (nearby.insertionSort distLE) Accum.init
      (by simp [Accum.init, dkeys]) (by simp [Accum.init, dkeys])
      (by simp [Accum.init, dkeys]) (by simp [Accum.init, dkeys])
  rw [hage, hint]
  exact ⟨normalized_update_closed _ _ hnd_age hsub_age,
    normalized_update_closed _ _ hnd_int hsub_int⟩

/-! ### C9: confidence decreases with distance (single POI) -/

theorem importance_bounds (t : String) (v : ℚ) (h : dget TYPE_IMPORTANCE t = some v) :
    (7 / 10 : ℚ) ≤ v ∧ v ≤ 17 / 10 := by
  have hm := dget_mem _ _ _ h
  fin_cases hm <;> exact ⟨by norm_num, by norm_num⟩

theorem popularity_factor_ge_one (u : Option ℕ) : 1 ≤ popularity_factor u := by
  cases u with
  | none => exact le_refl 1
  | some c =>
    simp only [popularity_factor]
    by_cases hc : c = 0
    · rw [if_pos hc]
    · rw [if_neg hc]
      have : (0 : ℝ) ≤ Real.log (1 + (c : ℝ)) :=
        Real.log_nonneg (le_add_of_nonneg_right (Nat.cast_nonneg c))
      linarith

theorem popularity_factor_le (u : Option ℕ) (h : ∀ c, u = some c → c ≤ 10 ^ 9) :
    popularity_factor u ≤ 22 := by
  cases u with
  | none => norm_num [popularity_factor]
  | some c =>
    simp only [popularity_factor]
    by_cases hc : c = 0
    · rw [if_pos hc]
      norm_num
    · rw [if_neg hc]
      have hcb := h c rfl
      have hc1 : (1 : ℝ) + (c : ℝ) ≤ 2 ^ 30 := by
        have : (c : ℝ) ≤ 10 ^ 9 := by exact_mod_cast hcb
        norm_num
        linarith
      have hlog : Real.log (1 + (c : ℝ)) ≤ Real.log (2 ^ 30) :=
        Real.log_le_log (by positivity) hc1
      rw [Real.log_pow] at hlog
      have h2 := Real.log_two_lt_d9
      norm_num at h2 hlog ⊢
      nlinarith

theorem gaussian_decay_pos (d : ℝ) : 0 < gaussian_decay d := Real.exp_pos _

theorem gaussian_decay_le_one (d : ℝ) : gaussian_decay d ≤ 1 := by
  unfold gaussian_decay
  rw [show (1 : ℝ) = Real.exp 0 from (Real.exp_zero).symm]
  rw [Real.exp_le_exp]
  unfold SIGMA_M
  nlinarith [sq_nonneg d]

theorem gaussian_decay_fifty : (31 : ℝ) / 32 ≤ gaussian_decay 50 := by
  unfold gaussian_decay SIGMA_M
  have h := Real.add_one_le_exp (-(50 * 50) / (2 * 200 * 200) : ℝ)
  norm_num at h ⊢
  linarith

theorem exp_eight_bounds : (256 : ℝ) ≤ Real.exp 8 ∧ Real.exp 8 ≤ 2981 := by
  have hm : Real.exp (8 : ℝ) = Real.exp 1 ^ (8 : ℕ) := by
    rw [← Real.exp_nat_mul]
    norm_num
  constructor
  · have h2 : (2 : ℝ) ≤ Real.exp 1 := by
      have := Real.add_one_le_exp (1 : ℝ)
      linarith
    rw [hm]
    calc (256 : ℝ) = 2 ^ (8 : ℕ) := by norm_num
      _ ≤ Real.exp 1 ^ (8 : ℕ) := pow_le_pow_left (by norm_num) h2 8
  · have h2 : Real.exp 1 ≤ 2.7182818286 := le_of_lt Real.exp_one_lt_d9
    rw [hm]
    calc Real.exp 1 ^ (8 : ℕ) ≤ (2.7182818286 : ℝ) ^ (8 : ℕ) :=
          pow_le_pow_left (le_of_lt (Real.exp_pos 1)) h2 8
      _ ≤ 2981 := by norm_num

theorem gaussian_decay_eight_hundred : gaussian_decay 800 ≤ 1 / 256 ∧
    1 / 2981 ≤ gaussian_decay 800 := by
  have hrw : gaussian_decay 800 = Real.exp (-8) := by
    unfold gaussian_decay SIGMA_M
    norm_num
  obtain ⟨hlo, hhi⟩ := exp_eight_bounds
  rw [hrw, Real.exp_neg]
  constructor
  · rw [show (1 : ℝ) / 256 = ((256 : ℝ))⁻¹ by norm_num]
    exact inv_le_inv_of_le (by norm_num) hlo
  · rw [show (1 : ℝ) / 2981 = ((2981 : ℝ))⁻¹ by norm_num]
    exact inv_le_inv_of_le (Real.exp_pos 8) hhi

/-- Evaluate the confidence of a profile built from a single typed POI at
distance `d`. -/
theorem confidence_single_eval (gp : GridPoint) (poi : Poi) (pt : String) (d : ℝ)
    (hpt : primary_type poi.types = some pt) :
    (compute_profile gp [(poi, d)]).confidence =
      pyround (min 1 ((((dget TYPE_IMPORTANCE pt).getD 1 : ℚ) : ℝ) * gaussian_decay d *
        popularity_factor poi.user_ratings_total / 15)) 2 := by
  have hfind := List.find?_some (by simpa [primary_type] using hpt)
  obtain ⟨v, hv⟩ := Option.isSome_iff_exists.1 (by simpa using hfind)
  have hvb := importance_bounds pt v hv
  have himp_pos : (0 : ℝ) < (((dget TYPE_IMPORTANCE pt).getD 1 : ℚ) : ℝ) := by
    rw [hv]
    simp only [Option.getD_some]
    have h7 : ((7 / 10 : ℚ) : ℝ) ≤ ((v : ℚ) : ℝ) := Rat.cast_le.2 hvb.1
    push_cast at h7
    linarith
  have hw_pos : 0 < (((dget TYPE_IMPORTANCE pt).getD 1 : ℚ) : ℝ) * gaussian_decay d *
      popularity_factor poi.user_ratings_total := by
    have h1 := gaussian_decay_pos d
    have h2 := popularity_factor_ge_one poi.user_ratings_total
    positivity
  simp only [compute_profile]
  rw [show List.insertionSort distLE [(poi, d)] = [(poi, d)] from rfl]
  simp only [List.foldl_cons, List.foldl_nil]
  simp [accum_step, hpt, Accum.init, hw_pos]

/-- C9 (amended): for every grid point and single POI with a resolved
primary category in the importance table and a review count of at most
`10^9` (so that the 800 m confidence cannot saturate at 1.0), the profile
computed with the POI at 50 m has strictly greater confidence than with the
POI at 800 m. -/
theorem confidence_fifty_gt_eight_hundred (gp : GridPoint) (poi : Poi) (pt : String)
    (hpt : primary_type poi.types = some pt)
    (hurt : ∀ c, poi.user_ratings_total = some c → c ≤ 10 ^ 9) :
    (compute_profile gp [(poi, 800)]).confidence <
      (compute_profile gp [(poi, 50)]).confidence := by
  have hfind := List.find?_some (by simpa [primary_type] using hpt)
  obtain ⟨v, hv⟩ := Option.isSome_iff_exists.1 (by simpa using hfind)
  have hvb := importance_bounds pt v hv
  have himp_lo : (7 / 10 : ℝ) ≤ (((dget TYPE_IMPORTANCE pt).getD 1 : ℚ) : ℝ) := by
    rw [hv]
    simp only [Option.getD_some]
    have h7 : ((7 / 10 : ℚ) : ℝ) ≤ ((v : ℚ) : ℝ) := Rat.cast_le.2 hvb.1
    push_cast at h7
    linarith
  have himp_hi : (((dget TYPE_IMPORTANCE pt).getD 1 : ℚ) : ℝ) ≤ 17 / 10 := by
    rw [hv]
    simp only [Option.getD_some]
    have h17 : ((v : ℚ) : ℝ) ≤ ((17 / 10 : ℚ) : ℝ) := Rat.cast_le.2 hvb.2
    push_cast at h17
    linarith
  have hpop1 : 1 ≤ popularity_factor poi.user_ratings_total :=
    popularity_factor_ge_one _
  have hpop22 : popularity_factor poi.user_ratings_total ≤ 22 :=
    popularity_factor_le _ hurt
  rw [confidence_single_eval gp poi pt 800 hpt, confidence_single_eval gp poi pt 50 hpt]
  have h800 : min 1 ((((dget TYPE_IMPORTANCE pt).getD 1 : ℚ) : ℝ) * gaussian_decay 800 *
      popularity_factor poi.user_ratings_total / 15) ≤ 0.0098 := by
    refine le_trans (min_le_right _ _) ?_
    have hd := gaussian_decay_eight_hundred.1
    have hdpos := gaussian_decay_pos 800
    have h1 : (((dget TYPE_IMPORTANCE pt).getD 1 : ℚ) : ℝ) * gaussian_decay 800 ≤
        (17 / 10) * (1 / 256) :=
      mul_le_mul himp_hi hd (le_of_lt hdpos) (by norm_num)
    have h2 : (((dget TYPE_IMPORTANCE pt).getD 1 : ℚ) : ℝ) * gaussian_decay 800 *
        popularity_factor poi.user_ratings_total ≤ (17 / 10) * (1 / 256) * 22 :=
      mul_le_mul h1 hpop22 (by linarith) (by norm_num)
    linarith
  have h50 : (0.045 : ℝ) ≤ min 1 ((((dget TYPE_IMPORTANCE pt).getD 1 : ℚ) : ℝ) *
      gaussian_decay 50 * popularity_factor poi.user_ratings_total / 15) := by
    refine le_min (by norm_num) ?_
    have hd := gaussian_decay_fifty
    have h1 : (7 / 10 : ℝ) * (31 / 32) ≤
        (((dget TYPE_IMPORTANCE pt).getD 1 : ℚ) : ℝ) * gaussian_decay 50 :=
      mul_le_mul himp_lo hd (by norm_num) (by linarith)
    have h2 : (7 / 10 : ℝ) * (31 / 32) * 1 ≤
        (((dget TYPE_IMPORTANCE pt).getD 1 : ℚ) : ℝ) * gaussian_decay 50 *
          popularity_factor poi.user_ratings_total :=
      mul_le_mul h1 hpop1 (by norm_num) (by nlinarith [gaussian_decay_pos 50])
    linarith
  calc pyround (min 1 ((((dget TYPE_IMPORTANCE pt).getD 1 : ℚ) : ℝ) * gaussian_decay 800 *
          popularity_factor poi.user_ratings_total / 15)) 2
      ≤ pyround 0.0098 2 := pyround_mono 2 h800
    _ < pyround 0.045 2 := by
        unfold pyround
        rw [round_eq, round_eq]
        norm_num
    _ ≤ pyround (min 1 ((((dget TYPE_IMPORTANCE pt).getD 1 : ℚ) : ℝ) * gaussian_decay 50 *
          popularity_factor poi.user_ratings_total / 15)) 2 := pyround_mono 2 h50

/-- Witness for C9 at a concrete grid point and school POI with 50 reviews. -/
theorem confidence_fifty_gt_eight_hundred_witness :
    (compute_profile ⟨"g_0_0", 0, 0, 28.4084, 77.0417⟩
        [(⟨"s1", "Test School", 28.4084, 77.0417, ["school"], none, some 50⟩, 800)]).confidence <
      (compute_profile ⟨"g_0_0", 0, 0, 28.4084, 77.0417⟩
        [(⟨"s1", "Test School", 28.4084, 77.0417, ["school"], none, some 50⟩, 50)]).confidence :=
  confidence_fifty_gt_eight_hundred _ _ "school" (by decide)
    (fun c hc => by
      injection hc with hc
      omega)

/-- Counterexample to C9 as stated: `confidence` saturates at 1.0 through
`min(1, ...)`, so for an astronomically reviewed POI (`2 ^ 40000` reviews,
allowed by the unbounded integer review count) the 50 m and 800 m profiles
both have confidence 1.0 and the strict inequality fails. -/
theorem confidence_saturates_at_huge_review_count :
    ¬ ((compute_profile ⟨"g", 0, 0, 0, 0⟩
          [(⟨"p", "P", 0, 0, ["it_park"], none, some (2 ^ 40000)⟩, 800)]).confidence <
        (compute_profile ⟨"g", 0, 0, 0, 0⟩
          [(⟨"p", "P", 0, 0, ["it_park"], none, some (2 ^ 40000)⟩, 50)]).confidence) := by
  have hpt : primary_type (["it_park"] : List String) = some "it_park" := by decide
  have himp_eq : (((dget TYPE_IMPORTANCE "it_park").getD 1 : ℚ) : ℝ) = 17 / 10 := by
    simp [TYPE_IMPORTANCE, dget]
    try norm_num
  have hcne : (2 ^ 40000 : ℕ) ≠ 0 := pow_ne_zero _ (by norm_num)
  have hpop : (27726 : ℝ) ≤ popularity_factor (some (2 ^ 40000 : ℕ)) := by
    simp only [popularity_factor, if_neg hcne]
    push_cast
    have hle : ((2 : ℝ) ^ (40000 : ℕ)) ≤ 1 + (2 : ℝ) ^ (40000 : ℕ) := by linarith
    have hlog := Real.log_le_log (by positivity) hle
    rw [Real.log_pow] at hlog
    have h2 := Real.log_two_gt_d9
    norm_num at h2 hlog ⊢
    nlinarith
  have hpop_pos : (0 : ℝ) < popularity_factor (some (2 ^ 40000 : ℕ)) := by
    have := popularity_factor_ge_one (some (2 ^ 40000 : ℕ))
    linarith
  rw [confidence_single_eval _ _ "it_park" 800 hpt, confidence_single_eval _ _ "it_park" 50 hpt]
  have h800sat : (1 : ℝ) ≤ (((dget TYPE_IMPORTANCE "it_park").getD 1 : ℚ) : ℝ) *
      gaussian_decay 800 * popularity_factor (some (2 ^ 40000 : ℕ)) / 15 := by
    rw [himp_eq]
    have hd := gaussian_decay_eight_hundred.2
    have h1 : (1 / 2981 : ℝ) * 27726 ≤
        gaussian_decay 800 * popularity_factor (some (2 ^ 40000 : ℕ)) :=
      mul_le_mul hd hpop (by norm_num) (le_of_lt (gaussian_decay_pos 800))
    nlinarith
  have h50sat : (1 : ℝ) ≤ (((dget TYPE_IMPORTANCE "it_park").getD 1 : ℚ) : ℝ) *
      gaussian_decay 50 * popularity_factor (some (2 ^ 40000 : ℕ)) / 15 := by
    rw [himp_eq]
    have hd := gaussian_decay_fifty
    have h1 : (31 / 32 : ℝ) * 27726 ≤
        gaussian_decay 50 * popularity_factor (some (2 ^ 40000 : ℕ)) :=
      mul_le_mul hd hpop (by norm_num) (le_of_lt (gaussian_decay_pos 50))
    nlinarith
  rw [min_eq_left h800sat, min_eq_left h50sat]
  exact lt_irrefl _

/-! ### Haversine toolbox for C1 and C2 -/

theorem radians_sub (a b : ℝ) : radians (a - b) = radians a - radians b := by
  unfold radians
  ring

theorem sin_sq_half_eq (x : ℝ) : Real.sin (x / 2) ^ 2 = 1 / 2 - Real.cos x / 2 := by
  have h1 := Real.sin_sq (x / 2)
  have h2 := Real.cos_sq (x / 2)
  rw [show 2 * (x / 2) = x from by ring] at h2
  linarith

theorem radians_mem_Icc (lat : ℝ) (h1 : -90 ≤ lat) (h2 : lat ≤ 90) :
    -(Real.pi / 2) ≤ radians lat ∧ radians lat ≤ Real.pi / 2 := by
  unfold radians
  have hpi := Real.pi_pos
  constructor <;> nlinarith

theorem cos_radians_nonneg (lat : ℝ) (h1 : -90 ≤ lat) (h2 : lat ≤ 90) :
    0 ≤ Real.cos (radians lat) := by
  obtain ⟨ha, hb⟩ := radians_mem_Icc lat h1 h2
  exact Real.cos_nonneg_of_mem_Icc ⟨ha, hb⟩

theorem hav_a_nonneg (lat1 lon1 lat2 lon2 : ℝ)
    (h1 : -90 ≤ lat1) (h2 : lat1 ≤ 90) (h3 : -90 ≤ lat2) (h4 : lat2 ≤ 90) :
    0 ≤ hav_a lat1 lon1 lat2 lon2 := by
  unfold hav_a
  have hc1 := cos_radians_nonneg lat1 h1 h2
  have hc2 := cos_radians_nonneg lat2 h3 h4
  exact add_nonneg (sq_nonneg _) (mul_nonneg (mul_nonneg hc1 hc2) (sq_nonneg _))

theorem hav_a_le_one (lat1 lon1 lat2 lon2 : ℝ)
    (h1 : -90 ≤ lat1) (h2 : lat1 ≤ 90) (h3 : -90 ≤ lat2) (h4 : lat2 ≤ 90) :
    hav_a lat1 lon1 lat2 lon2 ≤ 1 := by
  unfold hav_a
  rw [radians_sub lat2 lat1, sin_sq_half_eq, sin_sq_half_eq]
  have hc1 := cos_radians_nonneg lat1 h1 h2
  have hc2 := cos_radians_nonneg lat2 h3 h4
  have hsub := Real.cos_sub (radians lat2) (radians lat1)
  have hadd := Real.cos_add (radians lat1) (radians lat2)
  have hle := Real.cos_le_one (radians lat1 + radians lat2)
  have hlam := Real.neg_one_le_cos (radians (lon2 - lon1))
  have hprod : Real.cos (radians lat1) * Real.cos (radians lat2) * (-1) ≤
      Real.cos (radians lat1) * Real.cos (radians lat2) *
        Real.cos (radians (lon2 - lon1)) :=
    mul_le_mul_of_nonneg_left hlam (mul_nonneg hc1 hc2)
  nlinarith

theorem arcsin_sqrt_le_of_haversine_le (lat1 lon1 lat2 lon2 D : ℝ)
    (hD : haversine lat1 lon1 lat2 lon2 ≤ D) :
    Real.arcsin (Real.sqrt (hav_a lat1 lon1 lat2 lon2)) ≤ D / (2 * R) := by
  unfold haversine at hD
  rw [le_div_iff₀ (by unfold R; norm_num)]
  linarith

/-- From a haversine bound, a bound on the latitude difference in radians. -/
theorem abs_dphi_le_of_haversine_le (lat1 lon1 lat2 lon2 D : ℝ)
    (h1 : -90 ≤ lat1) (h2 : lat1 ≤ 90) (h3 : -90 ≤ lat2) (h4 : lat2 ≤ 90)
    (hhav : haversine lat1 lon1 lat2 lon2 ≤ D) :
    |radians lat2 - radians lat1| ≤ D / R := by
  set x := (radians lat2 - radians lat1) / 2 with hx
  obtain ⟨ha1, hb1⟩ := radians_mem_Icc lat1 h1 h2
  obtain ⟨ha2, hb2⟩ := radians_mem_Icc lat2 h3 h4
  have hpi := Real.pi_pos
  have habs : |radians lat2 - radians lat1| ≤ Real.pi :=
    abs_le.2 ⟨by linarith, by linarith⟩
  have hxr : |x| ≤ Real.pi / 2 := by
    rw [hx, abs_div, abs_two]
    linarith
  have hterm : Real.sin x ^ 2 ≤ hav_a lat1 lon1 lat2 lon2 := by
    unfold hav_a
    have harg : radians (lat2 - lat1) / 2 = x := by rw [radians_sub, hx]
    rw [harg]
    have hc1 := cos_radians_nonneg lat1 h1 h2
    have hc2 := cos_radians_nonneg lat2 h3 h4
    nlinarith [sq_nonneg (Real.sin (radians (lon2 - lon1) / 2)), mul_nonneg hc1 hc2]
  have hsqrt : |Real.sin x| ≤ Real.sqrt (hav_a lat1 lon1 lat2 lon2) :=
    (Real.sqrt_sq_eq_abs (Real.sin x)) ▸ Real.sqrt_le_sqrt hterm
  have hsabs : Real.sin |x| = |Real.sin x| := by
    rcases le_or_lt 0 x with hx0 | hx0
    · rw [abs_of_nonneg hx0,
        abs_of_nonneg (Real.sin_nonneg_of_nonneg_of_le_pi hx0
          (by rw [abs_of_nonneg hx0] at hxr; linarith))]
    · rw [abs_of_neg hx0,
        abs_of_nonpos (Real.sin_nonpos_of_nonnpos_of_neg_pi_le (le_of_lt hx0)
          (by rw [abs_of_neg hx0] at hxr; linarith)),
        Real.sin_neg]
  have harc : |x| ≤ Real.arcsin (Real.sqrt (hav_a lat1 lon1 lat2 lon2)) := by
    have hmono : Real.arcsin (Real.sin |x|) ≤
        Real.arcsin (Real.sqrt (hav_a lat1 lon1 lat2 lon2)) :=
      Real.monotone_arcsin (by rw [hsabs]; exact hsqrt)
    rwa [Real.arcsin_sin (by linarith [abs_nonneg x]) hxr] at hmono
  have harc2 := arcsin_sqrt_le_of_haversine_le lat1 lon1 lat2 lon2 D hhav
  have hfin : |x| ≤ D / (2 * R) := le_trans harc harc2
  have h2x : |radians lat2 - radians lat1| = 2 * |x| := by
    rw [hx, abs_div, abs_two]
    ring
  rw [h2x, show D / R = 2 * (D / (2 * R)) from by unfold R; ring]
  linarith

/-- From a haversine bound and lower bounds on the two cosines, a bound on
the sine of half the longitude difference. -/
theorem sin_dlam_le_of_haversine_le (lat1 lon1 lat2 lon2 D c0 : ℝ)
    (h1 : -90 ≤ lat1) (h2 : lat1 ≤ 90) (h3 : -90 ≤ lat2) (h4 : lat2 ≤ 90)
    (hc0 : 0 ≤ c0) (hcos1 : c0 ≤ Real.cos (radians lat1))
    (hcos2 : c0 ≤ Real.cos (radians lat2))
    (hD2 : D / (2 * R) ≤ Real.pi / 2)
    (hhav : haversine lat1 lon1 lat2 lon2 ≤ D) :
    c0 * |Real.sin (radians (lon2 - lon1) / 2)| ≤ Real.sin (D / (2 * R)) := by
  have ha0 := hav_a_nonneg lat1 lon1 lat2 lon2 h1 h2 h3 h4
  have ha1 := hav_a_le_one lat1 lon1 lat2 lon2 h1 h2 h3 h4
  have hterm : (c0 * |Real.sin (radians (lon2 - lon1) / 2)|) ^ 2 ≤
      hav_a lat1 lon1 lat2 lon2 := by
    unfold hav_a
    have hcc : c0 * c0 ≤ Real.cos (radians lat1) * Real.cos (radians lat2) :=
      mul_le_mul hcos1 hcos2 hc0 (le_trans hc0 hcos1)
    have hprod := mul_le_mul_of_nonneg_right hcc
      (sq_nonneg (Real.sin (radians (lon2 - lon1) / 2)))
    nlinarith [sq_nonneg (Real.sin (radians (lat2 - lat1) / 2)),
      sq_abs (Real.sin (radians (lon2 - lon1) / 2))]
  have hsqrt : c0 * |Real.sin (radians (lon2 - lon1) / 2)| ≤
      Real.sqrt (hav_a lat1 lon1 lat2 lon2) := by
    have hnn : 0 ≤ c0 * |Real.sin (radians (lon2 - lon1) / 2)| :=
      mul_nonneg hc0 (abs_nonneg _)
    calc c0 * |Real.sin (radians (lon2 - lon1) / 2)|
        = Real.sqrt ((c0 * |Real.sin (radians (lon2 - lon1) / 2)|) ^ 2) :=
          (Real.sqrt_sq hnn).symm
      _ ≤ _ := Real.sqrt_le_sqrt hterm
  have harc := arcsin_sqrt_le_of_haversine_le lat1 lon1 lat2 lon2 D hhav
  have hsin_eq : Real.sin (Real.arcsin (Real.sqrt (hav_a lat1 lon1 lat2 lon2))) =
      Real.sqrt (hav_a lat1 lon1 lat2 lon2) :=
    Real.sin_arcsin (le_trans (by norm_num) (Real.sqrt_nonneg _))
      (by rw [show (1 : ℝ) = Real.sqrt 1 from Real.sqrt_one.symm]
          exact Real.sqrt_le_sqrt ha1)
  have hsinmono : Real.sin (Real.arcsin (Real.sqrt (hav_a lat1 lon1 lat2 lon2))) ≤
      Real.sin (D / (2 * R)) :=
    Real.sin_le_sin_of_le_of_le_pi_div_two (Real.neg_pi_div_two_le_arcsin _) hD2 harc
  rw [hsin_eq] at hsinmono
  linarith

/-! ### C2: the coarse degree-margin filter never loses an in-radius POI -/

theorem sin_abs_eq (y : ℝ) (h : |y| ≤ Real.pi) : Real.sin |y| = |Real.sin y| := by
  rcases le_or_lt 0 y with hy | hy
  · rw [abs_of_nonneg hy,
      abs_of_nonneg (Real.sin_nonneg_of_nonneg_of_le_pi hy (by rwa [abs_of_nonneg hy] at h))]
  · rw [abs_of_neg hy,
      abs_of_nonpos (Real.sin_nonpos_of_nonnpos_of_neg_pi_le hy.le
        (by rw [abs_of_neg hy] at h; linarith)),
      Real.sin_neg]

/-- Numeric bounds on `cos(radians(28.44))`, the latitude-dependent
meters-to-degrees factor baked into `_LON_MARGIN`. -/
theorem cos_radians_gurgaon : Real.cos (radians 28.44) ≤ 0.8806 ∧
    0 < Real.cos (radians 28.44) := by
  have hpl := Real.pi_gt_d6
  have hpu := Real.pi_lt_d6
  set x := radians 28.44 with hx
  have hx_lo : (0.4963715 : ℝ) ≤ x := by
    rw [hx]
    unfold radians
    linarith
  have hx_hi : x ≤ 0.4963717 := by
    rw [hx]
    unfold radians
    linarith
  constructor
  · have hcos2 : Real.cos x = 1 - 2 * Real.sin (x / 2) ^ 2 := by
      have h := sin_sq_half_eq x
      linarith
    have ht_lo : (0.24818575 : ℝ) ≤ x / 2 := by linarith
    have ht_hi : x / 2 ≤ 0.24818585 := by linarith
    have hcube : (x / 2) ^ 3 ≤ (0.24818585 : ℝ) ^ 3 :=
      pow_le_pow_left (by linarith) ht_hi 3
    have hsin_gt := Real.sin_gt_sub_cube (by linarith : (0 : ℝ) < x / 2)
      (by linarith : x / 2 ≤ 1)
    have hsin_lo : (0.2443638 : ℝ) ≤ Real.sin (x / 2) := by nlinarith
    have hsin_hi : Real.sin (x / 2) ≤ 1 := Real.sin_le_one _
    have hsq : (0.2443638 : ℝ) * 0.2443638 ≤ Real.sin (x / 2) * Real.sin (x / 2) :=
      mul_le_mul hsin_lo hsin_lo (by norm_num) (by linarith)
    nlinarith
  · have h := Real.one_sub_sq_div_two_le_cos (x := x)
    have hsq : x * x ≤ (0.4963717 : ℝ) * 0.4963717 :=
      mul_le_mul hx_hi hx_hi (by linarith) (by norm_num)
    nlinarith

set_option maxHeartbeats 1600000 in
/-- C2 core: a POI within the influence radius of an in-bbox grid point
always passes the coarse degree-margin filter. -/
theorem coarse_margins_of_influence (glat glon plat plon : ℝ)
    (hg1 : BBOX_SOUTH ≤ glat) (hg2 : glat ≤ BBOX_NORTH)
    (hg3 : BBOX_WEST ≤ glon) (hg4 : glon ≤ BBOX_EAST)
    (hp1 : -90 ≤ plat) (hp2 : plat ≤ 90) (hp3 : -180 ≤ plon) (hp4 : plon ≤ 180)
    (hhav : haversine glat glon plat plon ≤ MAX_INFLUENCE_M) :
    |plat - glat| ≤ LAT_MARGIN ∧ |plon - glon| ≤ LON_MARGIN := by
  simp only [BBOX_SOUTH, BBOX_NORTH, BBOX_WEST, BBOX_EAST] at hg1 hg2 hg3 hg4
  simp only [MAX_INFLUENCE_M] at hhav
  have hpl := Real.pi_gt_d6
  have hpu := Real.pi_lt_d6
  have hg90a : (-90 : ℝ) ≤ glat := by linarith
  have hg90b : glat ≤ 90 := by linarith
  -- latitude difference bound in radians
  have hdphi := abs_dphi_le_of_haversine_le glat glon plat plon 1000
    hg90a hg90b hp1 hp2 hhav
  simp only [R] at hdphi
  have hdphi_rad := hdphi
  have habs_rad : |radians plat - radians glat| = |plat - glat| * Real.pi / 180 := by
    rw [show radians plat - radians glat = (plat - glat) * Real.pi / 180 from by
      unfold radians; ring]
    rw [abs_div, abs_mul, abs_of_pos Real.pi_pos, abs_of_pos (by norm_num : (0:ℝ) < 180)]
  rw [habs_rad] at hdphi
  have habs0 : 0 ≤ |plat - glat| := abs_nonneg _
  have hlat_pi : |plat - glat| * 3.141592 ≤ |plat - glat| * Real.pi :=
    mul_le_mul_of_nonneg_left (le_of_lt hpl) habs0
  have hlat : |plat - glat| ≤ 1100 / 111320 := by
    have h180 : |plat - glat| * Real.pi ≤ 180 * (1000 / 6378137) := by linarith
    linarith
  constructor
  · simp only [LAT_MARGIN, DEG_PER_M_LAT, MAX_INFLUENCE_M]
    linarith
  -- longitude part
  · -- bounds on the two latitudes in radians
    have hg_rad_lo : (0.494796 : ℝ) ≤ radians glat := by
      unfold radians
      nlinarith
    have hg_rad_hi : radians glat ≤ 0.497947 := by
      unfold radians
      nlinarith
    have hp_rad_lo : (0.494639 : ℝ) ≤ radians plat := by
      have h := abs_le.1 hdphi_rad
      linarith [h.1, h.2]
    have hp_rad_hi : radians plat ≤ 0.498104 := by
      have h := abs_le.1 hdphi_rad
      linarith [h.1, h.2]
    -- cosine lower bounds
    have hcosg : (0.8759 : ℝ) ≤ Real.cos (radians glat) := by
      have h := Real.one_sub_sq_div_two_le_cos (x := radians glat)
      have hsq : radians glat * radians glat ≤ (0.497947 : ℝ) * 0.497947 :=
        mul_le_mul hg_rad_hi hg_rad_hi (by linarith) (by norm_num)
      nlinarith
    have hcosp : (0.8759 : ℝ) ≤ Real.cos (radians plat) := by
      have h := Real.one_sub_sq_div_two_le_cos (x := radians plat)
      have hsq : radians plat * radians plat ≤ (0.498104 : ℝ) * 0.498104 :=
        mul_le_mul hp_rad_hi hp_rad_hi (by linarith) (by norm_num)
      nlinarith
    -- sine bound from the haversine bound
    have hD2 : (1000 : ℝ) / (2 * R) ≤ Real.pi / 2 := by
      simp only [R]
      linarith
    have hdlam := sin_dlam_le_of_haversine_le glat glon plat plon 1000 0.8759
      hg90a hg90b hp1 hp2 (by norm_num) hcosg hcosp hD2 hhav
    simp only [R] at hdlam
    have hsin_small : Real.sin (1000 / (2 * 6378137)) ≤ 1000 / (2 * 6378137) := by
      rcases eq_or_lt_of_le (by norm_num : (0:ℝ) ≤ 1000 / (2 * 6378137)) with h | h
      · rw [← h, Real.sin_zero]
      · exact le_of_lt (Real.sin_lt h)
    set y := radians (plon - glon) / 2 with hy
    have hsiny : |Real.sin y| ≤ 0.0000895 := by
      have : (0.8759 : ℝ) * |Real.sin y| ≤ 1000 / (2 * 6378137) := le_trans hdlam hsin_small
      linarith
    -- |y| is at most 257.15 degrees of half-angle
    have hy_abs : |y| ≤ 2.24410 := by
      have hlon : |plon - glon| ≤ 257.15 := abs_le.2 ⟨by linarith, by linarith⟩
      have : |y| = |plon - glon| * Real.pi / 360 := by
        rw [hy, show radians (plon - glon) / 2 = (plon - glon) * Real.pi / 360 from by
          unfold radians; ring]
        rw [abs_div, abs_mul, abs_of_pos Real.pi_pos,
          abs_of_pos (by norm_num : (0:ℝ) < 360)]
      rw [this]
      have hprod : |plon - glon| * Real.pi ≤ 257.15 * 3.141593 :=
        mul_le_mul hlon (le_of_lt hpu) (le_of_lt Real.pi_pos) (by norm_num)
      linarith
    have hy_pi : |y| ≤ Real.pi := by linarith
    have hsin_abs_y : Real.sin |y| ≤ 0.0000895 := by
      rw [sin_abs_eq y hy_pi]
      exact hsiny
    rcases le_or_lt |y| (Real.pi / 2) with hcase | hcase
    · -- small-angle case: invert the sine bound
      have hy_le : |y| ≤ 0.0000896 := by
        by_contra hcon
        push_neg at hcon
        have hX1 : (0.0000896 : ℝ) ≤ 1 := by norm_num
        have hsinX := Real.sin_gt_sub_cube (by norm_num : (0:ℝ) < 0.0000896) hX1
        have hmono : Real.sin 0.0000896 ≤ Real.sin |y| :=
          Real.sin_le_sin_of_le_of_le_pi_div_two (by nlinarith) hcase (le_of_lt hcon)
        norm_num at hsinX
        linarith
      -- convert back to degrees
      have hlon_deg : |plon - glon| ≤ 0.010268 := by
        have hyy : |radians (plon - glon)| = |plon - glon| * Real.pi / 180 := by
          rw [show radians (plon - glon) = (plon - glon) * Real.pi / 180 from by
            unfold radians
            ring]
          rw [abs_div, abs_mul, abs_of_pos Real.pi_pos,
            abs_of_pos (by norm_num : (0:ℝ) < 180)]
        have h2y : |radians (plon - glon)| = 2 * |y| := by
          rw [hy, abs_div, abs_two]
          ring
        have : |plon - glon| * Real.pi / 180 ≤ 2 * 0.0000896 := by
          rw [← hyy, h2y]
          linarith
        have hpi_prod : |plon - glon| * 3.141592 ≤ |plon - glon| * Real.pi :=
          mul_le_mul_of_nonneg_left (le_of_lt hpl) (abs_nonneg _)
        linarith
      obtain ⟨hcv_ub, hcv_pos⟩ := cos_radians_gurgaon
      simp only [LON_MARGIN, DEG_PER_M_LON, MAX_INFLUENCE_M]
      rw [show (1000 : ℝ) * (1 / (111320 * Real.cos (radians 28.44))) * 1.1 =
          1100 / (111320 * Real.cos (radians 28.44)) from by
        field_simp
        ring]
      rw [le_div_iff₀ (by positivity)]
      nlinarith [mul_le_mul hlon_deg hcv_ub (le_of_lt hcv_pos) (by norm_num),
        abs_nonneg (plon - glon)]
    · -- wrap-around case is impossible: the sine would be large
      exfalso
      have hu_lo : (0.89749 : ℝ) ≤ Real.pi - |y| := by linarith
      have hu_hi : Real.pi - |y| ≤ Real.pi / 2 := by linarith
      have hsin_eq : Real.sin |y| = Real.sin (Real.pi - |y|) := by
        rw [Real.sin_pi_sub]
      have hmono : Real.sin 0.89749 ≤ Real.sin (Real.pi - |y|) :=
        Real.sin_le_sin_of_le_of_le_pi_div_two (by nlinarith) hu_hi hu_lo
      have hsinL := Real.sin_gt_sub_cube (by norm_num : (0:ℝ) < 0.89749)
        (by norm_num : (0.89749:ℝ) ≤ 1)
      norm_num at hsinL
      rw [hsin_eq] at hsin_abs_y
      linarith

/-- C2: for every grid point inside the configured region and every POI
list with geographically valid coordinates, the two-stage filter of
`compute_all_profiles` (coarse degree-margin rejection, then exact
haversine test) selects exactly the POIs within `MAX_INFLUENCE_M` of the
grid point; in particular the coarse filter never rejects a POI within the
influence radius. -/
theorem two_stage_filter_eq_exact (gp : GridPoint) (pois : List Poi)
    (hg1 : BBOX_SOUTH ≤ gp.lat) (hg2 : gp.lat ≤ BBOX_NORTH)
    (hg3 : BBOX_WEST ≤ gp.lon) (hg4 : gp.lon ≤ BBOX_EAST)
    (hpois : ∀ p ∈ pois, -90 ≤ p.lat ∧ p.lat ≤ 90 ∧ -180 ≤ p.lon ∧ p.lon ≤ 180) :
    profile_candidates gp pois = influence_filter gp pois ∧
    (∀ p ∈ pois, haversine gp.lat gp.lon p.lat p.lon ≤ MAX_INFLUENCE_M →
      |p.lat - gp.lat| ≤ LAT_MARGIN ∧ |p.lon - gp.lon| ≤ LON_MARGIN) := by
  constructor
  · unfold profile_candidates influence_filter
    apply List.filterMap_congr
    intro poi hpoi
    obtain ⟨hp1, hp2, hp3, hp4⟩ := hpois poi hpoi
    by_cases hd : haversine gp.lat gp.lon poi.lat poi.lon ≤ MAX_INFLUENCE_M
    · have hm := coarse_margins_of_influence gp.lat gp.lon poi.lat poi.lon
        hg1 hg2 hg3 hg4 hp1 hp2 hp3 hp4 hd
      rw [if_pos ⟨hm.1, hm.2⟩]
    · rw [if_neg hd]
      by_cases hc : |poi.lat - gp.lat| ≤ LAT_MARGIN ∧ |poi.lon - gp.lon| ≤ LON_MARGIN
      · rw [if_pos hc]
      · rw [if_neg hc]
  · intro p hp hd
    obtain ⟨hp1, hp2, hp3, hp4⟩ := hpois p hp
    exact coarse_margins_of_influence gp.lat gp.lon p.lat p.lon
      hg1 hg2 hg3 hg4 hp1 hp2 hp3 hp4 hd

/-- Witness for C2 at a concrete in-region grid point. -/
theorem two_stage_filter_eq_exact_witness :
    profile_candidates ⟨"g_0_0", 0, 0, 28.4084, 77.0417⟩ [] =
      influence_filter ⟨"g_0_0", 0, 0, 28.4084, 77.0417⟩ [] := by
  have h := two_stage_filter_eq_exact ⟨"g_0_0", 0, 0, 28.4084, 77.0417⟩ []
    (by norm_num [BBOX_SOUTH]) (by norm_num [BBOX_NORTH])
    (by norm_num [BBOX_WEST]) (by norm_num [BBOX_EAST])
    (by intro p hp; simp at hp)
  exact h.1

/-! ### C1: tile centers cover the bounding box -/

theorem haversine_nonneg (lat1 lon1 lat2 lon2 : ℝ) :
    0 ≤ haversine lat1 lon1 lat2 lon2 := by
  unfold haversine
  have harc : 0 ≤ Real.arcsin (Real.sqrt (hav_a lat1 lon1 lat2 lon2)) :=
    Real.arcsin_nonneg.2 (Real.sqrt_nonneg _)
  have hR : (0 : ℝ) < R := by unfold R; norm_num
  positivity

theorem sqrt_two_bounds : (1.4142135 : ℝ) ≤ Real.sqrt 2 ∧ Real.sqrt 2 ≤ 1.4142136 := by
  have h := Real.sq_sqrt (by norm_num : (0:ℝ) ≤ 2)
  have hnn := Real.sqrt_nonneg 2
  constructor <;> nlinarith

/-- Coverage of an interval by the lattice points visited by the collector's
`while` loop: every `xp` between 0 and `w + 1` is within `s/2` of some
lattice point `-b + i*s` with `i` below the loop's iteration count. -/
theorem lattice_cover (w b s xp : ℝ) (hs_pos : 0 < s) (hb1 : 1 < b)
    (hxp0 : 0 ≤ xp) (hxpw : xp ≤ w + 1) (hw : 0 ≤ w)
    (hsb : s ≤ 2 * (b - 1)) :
    ∃ i : ℕ, i < ⌊(w + 2 * b) / s⌋₊ + 1 ∧ |xp - (-b + i * s)| ≤ s / 2 := by
  set q := (xp + b) / s with hq
  have hq_pos : 0 < q := by
    rw [hq]
    positivity
  have hround_nonneg : 0 ≤ round q := by
    rw [round_eq]
    have : (0 : ℝ) ≤ q + 1 / 2 := by linarith
    exact Int.floor_nonneg.2 this
  refine ⟨(round q).toNat, ?_, ?_⟩
  · have hcast : ((round q).toNat : ℝ) = (round q : ℝ) := by
      exact_mod_cast congrArg (fun z : ℤ => (z : ℝ)) (Int.toNat_of_nonneg hround_nonneg)
    rw [Nat.lt_succ_iff, Nat.le_floor_iff (by positivity)]
    rw [hcast]
    have hr_le : (round q : ℝ) ≤ q + 1 / 2 := by
      have := abs_sub_round q
      rw [abs_le] at this
      linarith [this.1]
    have hq_le : q + 1 / 2 ≤ (w + 2 * b) / s := by
      rw [hq, div_add' _ _ _ (ne_of_gt hs_pos), div_le_div_iff_of_pos_right hs_pos]
      linarith
    linarith
  · have hcast : ((round q).toNat : ℝ) = (round q : ℝ) := by
      exact_mod_cast congrArg (fun z : ℤ => (z : ℝ)) (Int.toNat_of_nonneg hround_nonneg)
    rw [hcast]
    have hxp_eq : xp = q * s - b := by
      rw [hq]
      field_simp
    have habs := abs_sub_round q
    have : xp - (-b + (round q : ℝ) * s) = (q - round q) * s := by
      rw [hxp_eq]
      ring
    rw [this, abs_mul, abs_of_pos hs_pos]
    calc |q - (round q : ℝ)| * s ≤ (1 / 2) * s := by
          have h1 : |q - (round q : ℝ)| ≤ 1 / 2 := by
            rw [abs_sub_comm] at habs ⊢
            exact habs
          exact mul_le_mul_of_nonneg_right h1 (le_of_lt hs_pos)
      _ = s / 2 := by ring

theorem cos_radians_south : (0.8775 : ℝ) ≤ Real.cos (radians 28.35) ∧
    Real.cos (radians 28.35) ≤ 1 := by
  have hpl := Real.pi_gt_d6
  have hpu := Real.pi_lt_d6
  have hx_lo : (0.4948007 : ℝ) ≤ radians 28.35 := by
    unfold radians
    linarith
  have hx_hi : radians 28.35 ≤ 0.4948009 := by
    unfold radians
    linarith
  constructor
  · have h := Real.one_sub_sq_div_two_le_cos (x := radians 28.35)
    have hsq : radians 28.35 * radians 28.35 ≤ (0.4948009 : ℝ) * 0.4948009 :=
      mul_le_mul hx_hi hx_hi (by linarith) (by norm_num)
    nlinarith
  · exact Real.cos_le_one _

/-- The north-south bbox extent: a pure-meridian haversine is exactly the
radian difference scaled by `R`. -/
theorem height_m_eq :
    haversine BBOX_SOUTH BBOX_WEST BBOX_NORTH BBOX_WEST = R * radians 0.18 := by
  unfold haversine hav_a BBOX_SOUTH BBOX_WEST BBOX_NORTH
  rw [show (76.82 : ℝ) - 76.82 = 0 from by norm_num,
    show (28.53 : ℝ) - 28.35 = 0.18 from by norm_num]
  rw [show radians 0 = 0 from by unfold radians; ring]
  simp only [zero_div, Real.sin_zero]
  have hpl := Real.pi_gt_d6
  have hpu := Real.pi_lt_d6
  have ht_pos : 0 < radians 0.18 / 2 := by
    unfold radians
    nlinarith
  have ht_small : radians 0.18 / 2 ≤ Real.pi / 2 := by
    unfold radians
    nlinarith
  have hsin_nn : 0 ≤ Real.sin (radians 0.18 / 2) :=
    Real.sin_nonneg_of_nonneg_of_le_pi (le_of_lt ht_pos) (by linarith)
  rw [show Real.sin (radians 0.18 / 2) ^ 2 +
      Real.cos (radians 28.35) * Real.cos (radians 28.53) * 0 ^ 2 =
      Real.sin (radians 0.18 / 2) ^ 2 from by ring]
  rw [Real.sqrt_sq hsin_nn, Real.arcsin_sin (by linarith) ht_small]
  ring

/-- The west-east bbox extent as an arcsine expression. -/
theorem width_m_eq :
    haversine BBOX_SOUTH BBOX_WEST BBOX_SOUTH BBOX_EAST =
      2 * R * Real.arcsin (Real.cos (radians 28.35) * Real.sin (radians 0.33 / 2)) := by
  unfold haversine hav_a BBOX_SOUTH BBOX_WEST BBOX_EAST
  rw [show (28.35 : ℝ) - 28.35 = 0 from by norm_num,
    show (77.15 : ℝ) - 76.82 = 0.33 from by norm_num]
  rw [show radians 0 = 0 from by unfold radians; ring]
  simp only [zero_div, Real.sin_zero]
  have hpl := Real.pi_gt_d6
  have hpu := Real.pi_lt_d6
  have hcs := cos_radians_south
  have hu_pos : 0 < radians 0.33 / 2 := by
    unfold radians
    nlinarith
  have hu_pi : radians 0.33 / 2 ≤ Real.pi := by
    unfold radians
    nlinarith
  have hsin_nn : 0 ≤ Real.sin (radians 0.33 / 2) :=
    Real.sin_nonneg_of_nonneg_of_le_pi (le_of_lt hu_pos) hu_pi
  rw [show (0 : ℝ) ^ 2 + Real.cos (radians 28.35) * Real.cos (radians 28.35) *
      Real.sin (radians 0.33 / 2) ^ 2 =
      (Real.cos (radians 28.35) * Real.sin (radians 0.33 / 2)) ^ 2 from by ring]
  rw [Real.sqrt_sq (mul_nonneg (by linarith [hcs.1]) hsin_nn)]

/-- The planar east coordinate of an in-bbox point is at most the computed
width plus a one-meter slack. -/
theorem xp_le_width_add_one (lon : ℝ) (h3 : BBOX_WEST ≤ lon) (h4 : lon ≤ BBOX_EAST) :
    R * Real.cos (radians 28.35) * (radians lon - radians 76.82) ≤
      haversine BBOX_SOUTH BBOX_WEST BBOX_SOUTH BBOX_EAST + 1 := by
  simp only [BBOX_WEST, BBOX_EAST] at h3 h4
  rw [width_m_eq]
  have hpl := Real.pi_gt_d6
  have hpu := Real.pi_lt_d6
  have hcs := cos_radians_south
  set u : ℝ := radians 0.33 / 2 with hu_def
  set cS : ℝ := Real.cos (radians 28.35) with hcS_def
  have hu_lo : (0.0028797 : ℝ) ≤ u := by
    rw [hu_def]
    unfold radians
    linarith
  have hu_hi : u ≤ 0.0028799 := by
    rw [hu_def]
    unfold radians
    linarith
  have hu_pos : 0 < u := by linarith
  have hsinu_nn : 0 ≤ Real.sin u :=
    Real.sin_nonneg_of_nonneg_of_le_pi (le_of_lt hu_pos) (by linarith)
  have hsinu_le : Real.sin u ≤ u := le_of_lt (Real.sin_lt hu_pos)
  have hz_nn : 0 ≤ cS * Real.sin u := mul_nonneg (by linarith [hcs.1]) hsinu_nn
  have hz_le1 : cS * Real.sin u ≤ 1 := by
    have := Real.sin_le_one u
    nlinarith [hcs.1, hcs.2]
  -- arcsin z is at least z
  have harcsin_ge : cS * Real.sin u ≤ Real.arcsin (cS * Real.sin u) := by
    have ht_nn : 0 ≤ Real.arcsin (cS * Real.sin u) := Real.arcsin_nonneg.2 hz_nn
    have hsin_eq := Real.sin_arcsin (by linarith : (-1 : ℝ) ≤ cS * Real.sin u) hz_le1
    rcases eq_or_lt_of_le ht_nn with h | h
    · rw [← h] at hsin_eq ⊢
      rw [Real.sin_zero] at hsin_eq
      linarith
    · have := Real.sin_lt h
      linarith [hsin_eq ▸ this]
  -- the loop's east extent exceeds the planar extent minus one meter
  have hlon_le : radians lon - radians 76.82 ≤ 2 * u := by
    rw [hu_def]
    unfold radians
    nlinarith
  have hcube : u ^ 3 ≤ (0.0028799 : ℝ) ^ 3 :=
    pow_le_pow_left (by linarith) hu_hi 3
  have hsin_gt := Real.sin_gt_sub_cube hu_pos (by linarith : u ≤ 1)
  have hdiff : cS * (u - Real.sin u) ≤ u ^ 3 / 4 := by
    have h1 : u - Real.sin u ≤ u ^ 3 / 4 := by linarith
    have h2 : cS * (u - Real.sin u) ≤ 1 * (u - Real.sin u) :=
      mul_le_mul_of_nonneg_right hcs.2 (by linarith)
    linarith
  have hR : R = 6378137 := rfl
  have hcS_nn : (0:ℝ) ≤ cS := by linarith [hcs.1]
  have hstep : R * cS * (radians lon - radians 76.82) ≤ R * cS * (2 * u) :=
    mul_le_mul_of_nonneg_left hlon_le (by rw [hR]; nlinarith)
  have harc_mul : 2 * R * (cS * Real.sin u) ≤
      2 * R * Real.arcsin (cS * Real.sin u) := by
    apply mul_le_mul_of_nonneg_left harcsin_ge
    rw [hR]
    norm_num
  have hkey : R * cS * (2 * u) ≤ 2 * R * (cS * Real.sin u) + 1 := by
    rw [hR]
    rw [hR] at hstep
    nlinarith [hdiff, hcube]
  linarith

set_option maxHeartbeats 3200000 in
/-- C1: every point inside the configured bounding box is within
`MAX_INFLUENCE_M` (haversine) of at least one center returned by
`compute_tile_centers`. -/
theorem compute_tile_centers_cover (lat lon : ℝ)
    (h1 : BBOX_SOUTH ≤ lat) (h2 : lat ≤ BBOX_NORTH)
    (h3 : BBOX_WEST ≤ lon) (h4 : lon ≤ BBOX_EAST) :
    ∃ c ∈ compute_tile_centers, haversine lat lon c.1 c.2 ≤ MAX_INFLUENCE_M := by
  have hpl := Real.pi_gt_d6
  have hpu := Real.pi_lt_d6
  have hpi0 : Real.pi ≠ 0 := by linarith
  obtain ⟨hs2lo, hs2hi⟩ := sqrt_two_bounds
  obtain ⟨hcsl, hcsh⟩ := cos_radians_south
  have hxp_w := xp_le_width_add_one lon h3 h4
  simp only [BBOX_SOUTH, BBOX_NORTH, BBOX_WEST, BBOX_EAST] at h1 h2 h3 h4 hxp_w
  have hR6 : R = 6378137 := rfl
  have hR0 : R ≠ 0 := by rw [hR6]; norm_num
  have hRpos : (0 : ℝ) < R := by rw [hR6]; norm_num
  set s : ℝ := 1000 * Real.sqrt 2 * 0.9 with hs_def
  set cS : ℝ := Real.cos (radians 28.35) with hcS_def
  set w : ℝ := haversine 28.35 76.82 28.35 77.15 with hw_def
  set hh : ℝ := haversine 28.35 76.82 28.53 76.82 with hh_def
  have hcS_pos : 0 < cS := by linarith
  have hcS0 : cS ≠ 0 := ne_of_gt hcS_pos
  have hs_lo : (1272.792 : ℝ) ≤ s := by rw [hs_def]; linarith
  have hs_hi : s ≤ 1272.793 := by rw [hs_def]; linarith
  have hs_pos : 0 < s := by linarith
  have hs_sq : s ^ 2 = 1620000 := by
    rw [hs_def]
    have hsq2 := Real.sq_sqrt (by norm_num : (0 : ℝ) ≤ 2)
    linear_combination 810000 * hsq2
  have hw_nn : 0 ≤ w := by
    rw [hw_def]
    exact haversine_nonneg 28.35 76.82 28.35 77.15
  have hh_eq : hh = R * radians 0.18 := height_m_eq
  have hh_lo : (20037.5 : ℝ) ≤ hh := by
    rw [hh_eq, hR6]
    unfold radians
    linarith
  have hh_hi : hh ≤ 20037.52 := by
    rw [hh_eq, hR6]
    unfold radians
    linarith
  set xp : ℝ := R * cS * (radians lon - radians 76.82) with hxp_def
  set yp : ℝ := R * (radians lat - radians 28.35) with hyp_def
  have hrad_lon_nn : 0 ≤ radians lon - radians 76.82 := by
    unfold radians
    have hp := mul_nonneg (show (0 : ℝ) ≤ lon - 76.82 by linarith)
      (le_of_lt Real.pi_pos)
    linarith [hp]
  have hrad_lat_nn : 0 ≤ radians lat - radians 28.35 := by
    unfold radians
    have hp := mul_nonneg (show (0 : ℝ) ≤ lat - 28.35 by linarith)
      (le_of_lt Real.pi_pos)
    linarith [hp]
  have hxp0 : 0 ≤ xp := by
    rw [hxp_def]
    exact mul_nonneg (mul_nonneg (le_of_lt hRpos) (le_of_lt hcS_pos)) hrad_lon_nn
  have hyp0 : 0 ≤ yp := by
    rw [hyp_def]
    exact mul_nonneg (le_of_lt hRpos) hrad_lat_nn
  have hyph : yp ≤ hh := by
    rw [hyp_def, hh_eq]
    have hmono : radians lat - radians 28.35 ≤ radians 0.18 := by
      unfold radians
      have hp := mul_le_mul_of_nonneg_right
        (show lat - 28.35 ≤ (0.18 : ℝ) by linarith) (le_of_lt Real.pi_pos)
      linarith [hp]
    exact mul_le_mul_of_nonneg_left hmono (le_of_lt hRpos)
  obtain ⟨i, hi_lt, hi_abs⟩ := lattice_cover w 1000 s xp hs_pos (by norm_num)
    hxp0 hxp_w hw_nn (by linarith)
  obtain ⟨j, hj_lt, hj_abs⟩ := lattice_cover hh 1000 s yp hs_pos (by norm_num)
    hyp0 (by linarith) (by linarith) (by linarith)
  set xc : ℝ := -1000 + ↑i * s with hxc_def
  set yc : ℝ := -1000 + ↑j * s with hyc_def
  have hyc_lo : (-1000 : ℝ) ≤ yc := by
    rw [hyc_def]
    have hjs : (0 : ℝ) ≤ ↑j * s := mul_nonneg (Nat.cast_nonneg j) (le_of_lt hs_pos)
    linarith
  have hyc_hi : yc ≤ hh + 1000 := by
    rw [hyc_def]
    have hjle : (j : ℝ) ≤ (hh + 2 * 1000) / s := by
      have hj1 : j ≤ ⌊(hh + 2 * 1000) / s⌋₊ := Nat.lt_succ_iff.1 hj_lt
      have hj2 : ((⌊(hh + 2 * 1000) / s⌋₊ : ℕ) : ℝ) ≤ (hh + 2 * 1000) / s :=
        Nat.floor_le (div_nonneg (by linarith) (le_of_lt hs_pos))
      calc (j : ℝ) ≤ (⌊(hh + 2 * 1000) / s⌋₊ : ℝ) := by exact_mod_cast hj1
        _ ≤ _ := hj2
    have hmul := mul_le_mul_of_nonneg_right hjle (le_of_lt hs_pos)
    rw [div_mul_cancel₀ _ (ne_of_gt hs_pos)] at hmul
    linarith
  refine ⟨offset_point 28.35 76.82 xc yc, ?_, ?_⟩
  · simp only [compute_tile_centers, MAX_INFLUENCE_M, BBOX_SOUTH, BBOX_NORTH,
      BBOX_WEST, BBOX_EAST]
    rw [← hs_def, ← hw_def, ← hh_def]
    refine List.mem_flatMap.2 ⟨j, List.mem_range.2 hj_lt, ?_⟩
    refine List.mem_map.2 ⟨i, List.mem_range.2 hi_lt, ?_⟩
    rw [hxc_def, hyc_def]
  · -- the distance bound
    set c1 : ℝ := 28.35 + (yc / R) * (180 / Real.pi) with hc1_def
    set c2 : ℝ := 76.82 + (xc / (R * cS)) * (180 / Real.pi) with hc2_def
    have hpair : offset_point 28.35 76.82 xc yc = (c1, c2) := rfl
    rw [hpair]
    show haversine lat lon c1 c2 ≤ 1000
    -- radian coordinates of the center
    have hrc1 : radians c1 = radians 28.35 + yc / R := by
      rw [hc1_def]
      unfold radians
      field_simp
      ring
    have hrc2 : radians c2 = radians 76.82 + xc / (R * cS) := by
      rw [hc2_def]
      unfold radians
      field_simp
      ring
    have hdphi_eq : radians (c1 - lat) = (yc - yp) / R := by
      rw [radians_sub, hrc1, hyp_def]
      unfold radians
      field_simp
      ring
    have hdlam_eq : radians (c2 - lon) = (xc - xp) / (R * cS) := by
      rw [radians_sub, hrc2, hxp_def]
      unfold radians
      field_simp
      ring
    -- numeric ranges for the latitude angles
    have hrs_lo : (0.4948007 : ℝ) ≤ radians 28.35 := by
      unfold radians
      linarith
    have hrs_hi : radians 28.35 ≤ 0.4948009 := by
      unfold radians
      linarith
    have hlat_hi : radians lat ≤ 0.49795 := by
      unfold radians
      have hp := mul_le_mul_of_nonneg_right (show lat ≤ (28.53 : ℝ) from h2)
        (le_of_lt Real.pi_pos)
      linarith [hp]
    have hlat_lo : radians 28.35 ≤ radians lat := by linarith [hrad_lat_nn]
    have hycR_lo : (-0.000157 : ℝ) ≤ yc / R := by
      rw [hR6, le_div_iff₀ (by norm_num : (0 : ℝ) < 6378137)]
      linarith
    have hycR_hi : yc / R ≤ 0.0033 := by
      rw [hR6, div_le_iff₀ (by norm_num : (0 : ℝ) < 6378137)]
      linarith
    have hrc1_lo : (0.4946 : ℝ) ≤ radians c1 := by
      rw [hrc1]
      linarith
    have hrc1_hi : radians c1 ≤ 0.4982 := by
      rw [hrc1]
      linarith
    have hcos_c1_nn : 0 ≤ Real.cos (radians c1) := by
      apply Real.cos_nonneg_of_mem_Icc
      exact Set.mem_Icc.2 ⟨by linarith, by linarith⟩
    have hcos_lat_le : Real.cos (radians lat) ≤ cS := by
      rw [hcS_def]
      exact Real.cos_le_cos_of_nonneg_of_le_pi (by linarith) (by linarith) hlat_lo
    have hcos_lat_nn : 0 ≤ Real.cos (radians lat) := by
      apply Real.cos_nonneg_of_mem_Icc
      exact Set.mem_Icc.2 ⟨by linarith, by linarith⟩
    have h1000R_pos : (0 : ℝ) < 1000 / R := by
      rw [hR6]
      norm_num
    have h1000R_hi : 1000 / R ≤ 0.000157 := by
      rw [hR6, div_le_iff₀ (by norm_num : (0 : ℝ) < 6378137)]
      norm_num
    have hcos_c1_le : Real.cos (radians c1) ≤ cS + 1000 / R := by
      rcases le_or_lt (radians 28.35) (radians c1) with hge | hlt
      · have hcc := Real.cos_le_cos_of_nonneg_of_le_pi (by linarith) (by linarith) hge
        rw [← hcS_def] at hcc
        linarith
      · have ht_pos : 0 < radians 28.35 - radians c1 := by linarith
        have ht_le : radians 28.35 - radians c1 ≤ 1000 / R := by
          rw [hrc1]
          have hre : radians 28.35 - (radians 28.35 + yc / R) = -yc / R := by ring
          rw [hre, div_le_div_iff₀ hRpos hRpos]
          linarith [mul_nonneg (show (0 : ℝ) ≤ 1000 + yc by linarith)
            (le_of_lt hRpos)]
        set t : ℝ := radians 28.35 - radians c1 with ht_def
        have ht_small : t ≤ 0.000157 := le_trans ht_le h1000R_hi
        have hsin_t_le : Real.sin t ≤ t := le_of_lt (Real.sin_lt ht_pos)
        have ht_pi : t ≤ Real.pi :=
          le_trans ht_small (le_of_lt (lt_trans (by norm_num) hpl))
        have hsin_t_nn : 0 ≤ Real.sin t :=
          Real.sin_nonneg_of_nonneg_of_le_pi (le_of_lt ht_pos) ht_pi
        have hcos_eq : Real.cos (radians c1) =
            cS * Real.cos t + Real.sin (radians 28.35) * Real.sin t := by
          have hc1t : radians c1 = radians 28.35 - t := by rw [ht_def]; ring
          rw [hc1t, Real.cos_sub, hcS_def]
        have hterm1 : cS * Real.cos t ≤ cS :=
          mul_le_of_le_one_right (le_of_lt hcS_pos) (Real.cos_le_one t)
        have hterm2 : Real.sin (radians 28.35) * Real.sin t ≤ t :=
          le_trans (mul_le_of_le_one_left hsin_t_nn (Real.sin_le_one _)) hsin_t_le
        rw [hcos_eq]
        linarith
    -- squared planar offsets are at most (s/2)^2 = 405000
    have hs24 : (s / 2) ^ 2 = 405000 := by
      rw [div_pow, hs_sq]
      norm_num
    have hDy2 : (yc - yp) ^ 2 ≤ 405000 := by
      have hp := pow_le_pow_left (abs_nonneg (yp - yc)) hj_abs 2
      rw [sq_abs, hs24] at hp
      have hsw : (yc - yp) ^ 2 = (yp - yc) ^ 2 := by ring
      rw [hsw]
      exact hp
    have hDx2 : (xc - xp) ^ 2 ≤ 405000 := by
      have hp := pow_le_pow_left (abs_nonneg (xp - xc)) hi_abs 2
      rw [sq_abs, hs24] at hp
      have hsw : (xc - xp) ^ 2 = (xp - xc) ^ 2 := by ring
      rw [hsw]
      exact hp
    have h4R2 : (0 : ℝ) < 4 * R ^ 2 := by
      rw [hR6]
      norm_num
    -- bound the haversine intermediate
    have ha_le : hav_a lat lon c1 c2 ≤ 810081 / (4 * R ^ 2) := by
      unfold hav_a
      rw [hdphi_eq, hdlam_eq]
      have hterm1 : Real.sin ((yc - yp) / R / 2) ^ 2 ≤ 405000 / (4 * R ^ 2) := by
        have hp : Real.sin ((yc - yp) / R / 2) ^ 2 ≤ ((yc - yp) / R / 2) ^ 2 :=
          Real.sin_sq_le_sq
        have heq : ((yc - yp) / R / 2) ^ 2 = (yc - yp) ^ 2 / (4 * R ^ 2) := by
          ring
        rw [heq] at hp
        calc Real.sin ((yc - yp) / R / 2) ^ 2 ≤ (yc - yp) ^ 2 / (4 * R ^ 2) := hp
          _ ≤ 405000 / (4 * R ^ 2) := by
              rw [div_le_div_iff_of_pos_right h4R2]
              exact hDy2
      have hsin2 : Real.sin ((xc - xp) / (R * cS) / 2) ^ 2 ≤
          (xc - xp) ^ 2 / (4 * (R * cS) ^ 2) := by
        have hp : Real.sin ((xc - xp) / (R * cS) / 2) ^ 2 ≤
            ((xc - xp) / (R * cS) / 2) ^ 2 := Real.sin_sq_le_sq
        have heq : ((xc - xp) / (R * cS) / 2) ^ 2 =
            (xc - xp) ^ 2 / (4 * (R * cS) ^ 2) := by
          ring
        rw [heq] at hp
        exact hp
      have hprod : Real.cos (radians lat) * Real.cos (radians c1) ≤
          cS * (cS + 1000 / R) :=
        mul_le_mul hcos_lat_le hcos_c1_le hcos_c1_nn (le_of_lt hcS_pos)
      have hB_nn : (0 : ℝ) ≤ cS * (cS + 1000 / R) :=
        mul_nonneg (le_of_lt hcS_pos) (by linarith)
      have hterm2 : Real.cos (radians lat) * Real.cos (radians c1) *
          Real.sin ((xc - xp) / (R * cS) / 2) ^ 2 ≤
          cS * (cS + 1000 / R) * ((xc - xp) ^ 2 / (4 * (R * cS) ^ 2)) :=
        mul_le_mul hprod hsin2 (sq_nonneg _) hB_nn
      have hB : cS * (cS + 1000 / R) ≤ 1.0002 * cS ^ 2 := by
        have hkey : 1000 / R ≤ 0.0002 * cS := by
          rw [hR6]
          linarith
        linarith [mul_le_mul_of_nonneg_left hkey (le_of_lt hcS_pos)]
      have hterm2b : cS * (cS + 1000 / R) * ((xc - xp) ^ 2 / (4 * (R * cS) ^ 2)) ≤
          1.0002 * (405000 / (4 * R ^ 2)) := by
        have hre : cS * (cS + 1000 / R) * ((xc - xp) ^ 2 / (4 * (R * cS) ^ 2)) =
            (cS * (cS + 1000 / R) / cS ^ 2) * ((xc - xp) ^ 2 / (4 * R ^ 2)) := by
          ring
        rw [hre]
        have hq1 : cS * (cS + 1000 / R) / cS ^ 2 ≤ 1.0002 := by
          rw [div_le_iff₀ (pow_pos hcS_pos 2)]
          exact hB
        have hq2 : (xc - xp) ^ 2 / (4 * R ^ 2) ≤ 405000 / (4 * R ^ 2) := by
          rw [div_le_div_iff_of_pos_right h4R2]
          exact hDx2
        have hq2nn : (0 : ℝ) ≤ (xc - xp) ^ 2 / (4 * R ^ 2) :=
          div_nonneg (sq_nonneg _) (le_of_lt h4R2)
        calc (cS * (cS + 1000 / R) / cS ^ 2) * ((xc - xp) ^ 2 / (4 * R ^ 2)) ≤
            1.0002 * ((xc - xp) ^ 2 / (4 * R ^ 2)) :=
              mul_le_mul_of_nonneg_right hq1 hq2nn
          _ ≤ 1.0002 * (405000 / (4 * R ^ 2)) :=
              mul_le_mul_of_nonneg_left hq2 (by norm_num)
      calc Real.sin ((yc - yp) / R / 2) ^ 2 +
          Real.cos (radians lat) * Real.cos (radians c1) *
            Real.sin ((xc - xp) / (R * cS) / 2) ^ 2 ≤
          405000 / (4 * R ^ 2) + 1.0002 * (405000 / (4 * R ^ 2)) :=
            add_le_add hterm1 (le_trans hterm2 hterm2b)
        _ = 810081 / (4 * R ^ 2) := by ring
    -- pass through sqrt and arcsin
    have h900nn : (0 : ℝ) ≤ 900.05 / (2 * R) := by
      rw [hR6]
      norm_num
    have hsq900 : 810081 / (4 * R ^ 2) ≤ (900.05 / (2 * R)) ^ 2 := by
      have hre : (900.05 / (2 * R)) ^ 2 = 810090.0025 / (4 * R ^ 2) := by
        field_simp
        ring
      rw [hre, div_le_div_iff_of_pos_right h4R2]
      norm_num
    have hsqrt_le : Real.sqrt (hav_a lat lon c1 c2) ≤ 900.05 / (2 * R) := by
      have hp := Real.sqrt_le_sqrt (le_trans ha_le hsq900)
      rwa [Real.sqrt_sq h900nn] at hp
    have ht0_pos : (0 : ℝ) < 1000 / (2 * R) := by
      rw [hR6]
      norm_num
    have ht0_le_one : 1000 / (2 * R) ≤ 1 := by
      rw [hR6]
      norm_num
    have hsin_t0 : 900.05 / (2 * R) ≤ Real.sin (1000 / (2 * R)) := by
      have hp := Real.sin_gt_sub_cube ht0_pos ht0_le_one
      have hnum : 900.05 / (2 * R) ≤ 1000 / (2 * R) - (1000 / (2 * R)) ^ 3 / 4 := by
        rw [hR6]
        norm_num
      linarith
    have ht0_le_pi2 : 1000 / (2 * R) ≤ Real.pi / 2 := by
      rw [hR6]
      linarith
    have harcsin : Real.arcsin (Real.sqrt (hav_a lat lon c1 c2)) ≤ 1000 / (2 * R) := by
      have hmono : Real.arcsin (Real.sqrt (hav_a lat lon c1 c2)) ≤
          Real.arcsin (Real.sin (1000 / (2 * R))) :=
        Real.monotone_arcsin (le_trans hsqrt_le hsin_t0)
      rwa [Real.arcsin_sin (by linarith) ht0_le_pi2] at hmono
    unfold haversine
    have hfinal : 2 * R * Real.arcsin (Real.sqrt (hav_a lat lon c1 c2)) ≤
        2 * R * (1000 / (2 * R)) :=
      mul_le_mul_of_nonneg_left harcsin (by rw [hR6]; norm_num)
    have h2R : 2 * R * (1000 / (2 * R)) = 1000 := by
      rw [hR6]
      norm_num
    linarith

/-- The coverage theorem applied at a concrete in-bbox point. -/
theorem compute_tile_centers_cover_witness :
    (BBOX_SOUTH ≤ (28.4 : ℝ) ∧ (28.4 : ℝ) ≤ BBOX_NORTH ∧
      BBOX_WEST ≤ (77.0 : ℝ) ∧ (77.0 : ℝ) ≤ BBOX_EAST) ∧
    ∃ c ∈ compute_tile_centers, haversine 28.4 77.0 c.1 c.2 ≤ MAX_INFLUENCE_M := by
  constructor
  · refine ⟨?_, ?_, ?_, ?_⟩ <;>
      norm_num [BBOX_SOUTH, BBOX_NORTH, BBOX_WEST, BBOX_EAST]
  · exact compute_tile_centers_cover 28.4 77.0
      (by norm_num [BBOX_SOUTH]) (by norm_num [BBOX_NORTH])
      (by norm_num [BBOX_WEST]) (by norm_num [BBOX_EAST])

end GridPoi
